import Mathlib

/-!
# Verification of the Microvium ahead-of-time compiler and snapshot pipeline

This development gives a shallow embedding, in Lean 4, of the parts of the
Microvium compiler and snapshot codec that the specification's testable
claims are about:

* the snapshot decoder `decodeSnapshot` / `decodeValue` (`src/lib.ts`),
  together with the CRC-16-CCITT checksum it validates;
* pass 2 of the scope analyser, `computeFunctionSlots` /
  `computeIlFunctionParameterSlots`
  (`src/lib/src-to-il/analyze-scopes/pass-2-compute-slots.ts`);
* the IL emitter (`addOp`, `predeclareBlock`, `createBlock`) and the
  syntax-directed compiler for the statement and expression forms the
  claims mention (`compileSwitchStatement`, `compileBinaryExpression`,
  `compileArrayExpression`, `compileIfStatement`, `compileWhileStatement`,
  `compileBreakStatement`, `compileReturnStatement`, ...), from the same
  file.

Definitions are translated from the TypeScript source.  A few constants and
helpers live in repository files that are not available (`runtime-types.ts`,
`snapshot-info.ts`, `il-opcodes.ts`, the `crc` npm package); those are
modelled from the specification and are marked `Modelled from the spec:` in
their doc comments.
-/

namespace Microvium

set_option maxRecDepth 8000

/-! ## Section-tag and well-known-value constants -/

/-- Modelled from the spec: the 16-bit serialized value space is partitioned
by the top two bits; `0x0000–0x3FFF` is the direct integer tag
(`vm_TeValueTag.VM_TAG_INT` in `runtime-types.ts`, which is not under
`src/`). -/
def VM_TAG_INT : Nat := 0x0000

/-- Modelled from the spec: `0x4000–0x7FFF` is the GC heap section
(`VM_TAG_GC_P`). -/
def VM_TAG_GC_P : Nat := 0x4000

/-- Modelled from the spec: `0x8000–0xBFFF` is the initial-data section
(`VM_TAG_DATA_P`). -/
def VM_TAG_DATA_P : Nat := 0x8000

/-- Modelled from the spec: `0xC000–0xFFFF` is the bytecode-resident section
(`VM_TAG_PGM_P`). -/
def VM_TAG_PGM_P : Nat := 0xC000

/-- Modelled from the spec: well-known values occupy a reserved prefix of
`PGM_P` space, in the order matched by `decodeValue` in `src/lib.ts`
(undefined, null, true, false, NaN, negative zero, deleted). -/
def VM_VALUE_UNDEFINED : Nat := 0xC000

/-- Modelled from the spec: see `VM_VALUE_UNDEFINED`. -/
def VM_VALUE_NULL : Nat := 0xC001

/-- Modelled from the spec: see `VM_VALUE_UNDEFINED`. -/
def VM_VALUE_TRUE : Nat := 0xC002

/-- Modelled from the spec: see `VM_VALUE_UNDEFINED`. -/
def VM_VALUE_FALSE : Nat := 0xC003

/-- Modelled from the spec: see `VM_VALUE_UNDEFINED`. -/
def VM_VALUE_NAN : Nat := 0xC004

/-- Modelled from the spec: see `VM_VALUE_UNDEFINED`. -/
def VM_VALUE_NEG_ZERO : Nat := 0xC005

/-- Modelled from the spec: see `VM_VALUE_UNDEFINED`. -/
def VM_VALUE_DELETED : Nat := 0xC006

/-- Modelled from the spec: one past the last well-known value. -/
def VM_VALUE_WELLKNOWN_END : Nat := 0xC007

/-- Modelled from the spec: the snapshot header occupies bytes `0..41`
(the fields listed in the §4.3 layout table: two `u8`s, two `u16`s at
offsets 2 and 4, `u16` at 6, `u32` at 8, `u16` count at 12, then seven
`{offset:u16, size:u16}` pairs); `HEADER_SIZE` itself is defined in
`snapshot-info.ts`, which is not under `src/`. -/
def HEADER_SIZE : Nat := 42

/-- Modelled from the spec: the decoder requires `bytecodeVersion` to equal
this constant (`snapshot-info.ts` is not under `src/`; the numeric value is
not given by the spec and is fixed here as 1 — no theorem below depends on
the value). -/
def BYTECODE_VERSION : Nat := 1

/-- Modelled from the spec: the decoder requires `requiredEngineVersion` to
equal this constant (value fixed arbitrarily as 0; no theorem depends on
it). -/
def ENGINE_VERSION : Nat := 0

/-- Modelled from the spec: the allocation type code for arrays
(`TeTypeCode.TC_REF_ARRAY` in `runtime-types.ts`, not under `src/`; value
fixed arbitrarily — no theorem depends on it). -/
def TC_REF_ARRAY : Nat := 0xC

/-! ## IL values and the value decoder (`decodeValue` in `src/lib.ts`)

IL `NumberValue`s produced by the decoder are always either integers, NaN
or negative zero, so the embedding represents them with dedicated
constructors instead of floating point. -/

/-- The IL values that `decodeValue` can produce.  `reference` carries the
allocation ID produced by `addressToAllocationID`. -/
inductive ILValue where
  | undef
  | null
  | boolean (b : Bool)
  | num (n : Int)
  | nan
  | negZero
  | reference (allocationID : Nat)
deriving DecidableEq, Repr

/-- The kinds of snapshot-mapping component that `decodeValue` records for
the 2-byte slot it reads (`SnapshotMappingComponent` in `src/lib.ts`,
restricted to the three kinds `decodeValue` pushes). -/
inductive MappingComponent where
  | value
  | reference
  | deletedValue
deriving DecidableEq, Repr

/-- The classification a 16-bit word receives in `decodeValue`
(`src/lib.ts` lines 325–357): a zero top-two-bit tag is an inline integer
(`u16 > 0x2000 ? u16 - 0x4000 : u16`); a `PGM_P`-tagged word below
`VM_VALUE_WELLKNOWN_END` is a well-known constant (the `VM_VALUE_DELETED`
case yields no value); anything else is a reference, represented here by
the raw 16-bit address (`decodeSnapshot` then maps it to an allocation ID).
Also returns the mapping component recorded for the slot.  The `.error`
case is the `unexpected()` default branch of the `switch`. -/
def decodeValue (u16 : Nat) : Except Unit (Option ILValue × MappingComponent) :=
  if u16 &&& 0xC000 = 0 then
    .ok (some (.num (if u16 > 0x2000 then (u16 : Int) - 0x4000 else (u16 : Int))), .value)
  else if u16 &&& 0xC000 = VM_TAG_PGM_P ∧ u16 < VM_VALUE_WELLKNOWN_END then
    if u16 = VM_VALUE_UNDEFINED then .ok (some .undef, .value)
    else if u16 = VM_VALUE_NULL then .ok (some .null, .value)
    else if u16 = VM_VALUE_TRUE then .ok (some (.boolean true), .value)
    else if u16 = VM_VALUE_FALSE then .ok (some (.boolean false), .value)
    else if u16 = VM_VALUE_NAN then .ok (some .nan, .value)
    else if u16 = VM_VALUE_NEG_ZERO then .ok (some .negZero, .value)
    else if u16 = VM_VALUE_DELETED then .ok (none, .deletedValue)
    else .error ()
  else
    .ok (some (.reference u16), .reference)

/-- The mapping entry `decodeValue` pushes for the 2-byte slot it reads:
`{ offset, size: 2, content }`. -/
structure ValueMappingEntry where
  offset : Nat
  size : Nat
  content : MappingComponent
deriving DecidableEq, Repr

/-! ## CRC-16-CCITT -/

/-- Modelled from the spec: one shift step of CRC-16-CCITT with polynomial
`0x1021` (MSB first, as computed by the `crc` npm package's `crc16ccitt`,
which is not under `src/`): shift left one bit modulo `2^16` and xor the
polynomial in when the bit shifted out was set. -/
def crcStepBit (s : Nat) : Nat :=
  if 32768 ≤ s then ((2 * s) % 65536) ^^^ 0x1021 else (2 * s) % 65536

/-- Modelled from the spec: absorb one byte into the CRC state: xor the
byte into the high 8 bits of the state, then do eight shift steps. -/
def crcStepByte (s b : Nat) : Nat :=
  (crcStepBit)^[8] ((s ^^^ (b <<< 8)) % 65536)

/-- Modelled from the spec: CRC-16-CCITT with initial value `0xFFFF` over a
byte sequence. -/
def crc16ccitt (bytes : List Nat) : Nat :=
  bytes.foldl crcStepByte 0xFFFF

/-! ## Buffer reads (SmartBuffer, little-endian) -/

/-- The error kinds `decodeSnapshot` can signal.  The first five correspond
to the `invalidOperation(...)` messages in `src/lib.ts`; `rangeError` is a
`SmartBuffer` read past the end of the buffer (or before its start);
`notImplementedErr` is the `notImplemented()` reached for a non-empty
array allocation; `unexpectedErr` covers the `unexpected()` branches. -/
inductive DecodeError where
  | sizeMismatch
  | headerSizeUnexpected
  | crcMismatch
  | bytecodeVersionNotSupported
  | engineVersionNotSupported
  | rangeError
  | notImplementedErr
  | unexpectedErr
deriving DecidableEq, Repr

/-- Read one byte at `off`; reading past the end throws (`rangeError`). -/
def readU8 (data : List Nat) (off : Nat) : Except DecodeError Nat :=
  match data[off]? with
  | some b => .ok b
  | none => .error .rangeError

/-- Read a little-endian 16-bit word at `off`. -/
def readU16LE (data : List Nat) (off : Nat) : Except DecodeError Nat := do
  let lo ← readU8 data off
  let hi ← readU8 data (off + 1)
  .ok (lo + 256 * hi)

/-- Read a little-endian 32-bit word at `off`. -/
def readU32LE (data : List Nat) (off : Nat) : Except DecodeError Nat := do
  let lo ← readU16LE data off
  let hi ← readU16LE data (off + 2)
  .ok (lo + 65536 * hi)

/-! ## The snapshot decoder (`decodeSnapshot` in `src/lib.ts`) -/

/-- The header fields read by `decodeSnapshot` before and after its
validity checks. -/
structure SnapshotHeader where
  bytecodeVersion : Nat
  headerSize : Nat
  bytecodeSize : Nat
  expectedCRC : Nat
  requiredEngineVersion : Nat
  requiredFeatureFlags : Nat
  globalVariableCount : Nat
  initialDataOffset : Nat
  initialDataSize : Nat
  initialHeapOffset : Nat
  initialHeapSize : Nat
  gcRootsOffset : Nat
  gcRootsCount : Nat
  importTableOffset : Nat
  importTableSize : Nat
  exportTableOffset : Nat
  exportTableSize : Nat
  shortCallTableOffset : Nat
  shortCallTableSize : Nat
  stringTableOffset : Nat
  stringTableSize : Nat
deriving DecidableEq, Repr

/-- The header phase of `decodeSnapshot` (`src/lib.ts` lines 130–178): read
the first four header fields, then check, in this order, bytecode size
against the buffer length, header size against `HEADER_SIZE`, the
CRC-16-CCITT of bytes `[6, end)` against `expectedCRC`, and
`bytecodeVersion` against `BYTECODE_VERSION`; then read the remaining
header fields and check `requiredEngineVersion` against `ENGINE_VERSION`.
Note there is no check of `requiredFeatureFlags`: `decodeFlags` merely
records the set bits. -/
def decodeSnapshotHeader (data : List Nat) : Except DecodeError SnapshotHeader := do
  let bytecodeVersion ← readU8 data 0
  let headerSize ← readU8 data 1
  let bytecodeSize ← readU16LE data 2
  let expectedCRC ← readU16LE data 4
  if bytecodeSize ≠ data.length then .error .sizeMismatch else
  if headerSize ≠ HEADER_SIZE then .error .headerSizeUnexpected else
  if crc16ccitt (data.drop 6) ≠ expectedCRC then .error .crcMismatch else
  if bytecodeVersion ≠ BYTECODE_VERSION then .error .bytecodeVersionNotSupported else do
  let requiredEngineVersion ← readU16LE data 6
  let requiredFeatureFlags ← readU32LE data 8
  let globalVariableCount ← readU16LE data 12
  let initialDataOffset ← readU16LE data 14
  let initialDataSize ← readU16LE data 16
  let initialHeapOffset ← readU16LE data 18
  let initialHeapSize ← readU16LE data 20
  let gcRootsOffset ← readU16LE data 22
  let gcRootsCount ← readU16LE data 24
  let importTableOffset ← readU16LE data 26
  let importTableSize ← readU16LE data 28
  let exportTableOffset ← readU16LE data 30
  let exportTableSize ← readU16LE data 32
  let shortCallTableOffset ← readU16LE data 34
  let shortCallTableSize ← readU16LE data 36
  let stringTableOffset ← readU16LE data 38
  let stringTableSize ← readU16LE data 40
  if requiredEngineVersion ≠ ENGINE_VERSION then .error .engineVersionNotSupported else
  .ok {
    bytecodeVersion, headerSize, bytecodeSize, expectedCRC,
    requiredEngineVersion, requiredFeatureFlags, globalVariableCount,
    initialDataOffset, initialDataSize, initialHeapOffset, initialHeapSize,
    gcRootsOffset, gcRootsCount, importTableOffset, importTableSize,
    exportTableOffset, exportTableSize, shortCallTableOffset,
    shortCallTableSize, stringTableOffset, stringTableSize }

/-- `decodeFlags` (`src/lib.ts`): record every set bit among the low 32
bits of `requiredFeatureFlags`.  No bit causes a failure. -/
def decodeFlags (requiredFeatureFlags : Nat) : List Nat :=
  (List.range 32).filter (fun i => requiredFeatureFlags.testBit i)

/-- The allocation-ID state: `nextAllocationID` (starting at 1) and the
address → ID map (`addressToAllocationID` in `src/lib.ts`). -/
structure AllocIds where
  nextAllocationID : Nat
  byAddress : List (Nat × Nat)
deriving DecidableEq, Repr

/-- `addressToAllocationID` (`src/lib.ts`): reuse the ID of a previously
seen address, else allocate the next one. -/
def addressToAllocationID (st : AllocIds) (address : Nat) : Nat × AllocIds :=
  match st.byAddress.lookup address with
  | some id => (id, st)
  | none => (st.nextAllocationID,
      { nextAllocationID := st.nextAllocationID + 1,
        byAddress := (address, st.nextAllocationID) :: st.byAddress })

/-- `decodeAllocation` (`src/lib.ts` lines 441–492): dedup via the
processed set; an `INT`-tagged address is `unexpected()`; a `GC_P` address
has its header word read at `initialHeapOffset + (address - 0x4000) - 2`
(reading before the start of the buffer throws), and an array allocation
additionally reads its 16-bit length prefix and reaches
`notImplemented()` when the length is non-zero; the `switch` has no case
for `DATA_P`/`PGM_P` addresses, which therefore fall through without
effect. -/
def decodeAllocation (data : List Nat) (initialHeapOffset : Nat) (address : Nat)
    (processed : List Nat) : Except DecodeError (List Nat) :=
  if address ∈ processed then .ok processed
  else
    let processed := address :: processed
    let sectionCode := address &&& 0xC000
    if sectionCode = VM_TAG_INT then .error .unexpectedErr
    else if sectionCode = VM_TAG_GC_P then
      let offset := initialHeapOffset + (address - VM_TAG_GC_P)
      if offset < 2 then .error .rangeError else do
      let headerWord ← readU16LE data (offset - 2)
      let typeCode := headerWord >>> 12
      if typeCode = TC_REF_ARRAY then
        if offset < 4 then .error .rangeError else do
        let length ← readU16LE data (offset - 4)
        if length > 0 then .error .notImplementedErr
        else .ok processed
      else .ok processed
    else .ok processed

/-- One step of `decodeGlobalSlots` (`src/lib.ts` lines 231–242 together
with `decodeValue`): read the 16-bit word for global `i` at `off`, classify
it, record the mapping entry, and on a reference visit the allocation and
translate the address to an allocation ID. -/
def decodeGlobalSlot (data : List Nat) (initialHeapOffset off : Nat)
    (processed : List Nat) (ids : AllocIds) :
    Except DecodeError (Option ILValue × ValueMappingEntry × List Nat × AllocIds) := do
  let u16 ← readU16LE data off
  match decodeValue u16 with
  | .error () => .error .unexpectedErr
  | .ok (v, comp) =>
    match v with
    | some (.reference address) =>
      let (id, ids) := addressToAllocationID ids address
      let processed ← decodeAllocation data initialHeapOffset address processed
      .ok (some (.reference id), ⟨off, 2, comp⟩, processed, ids)
    | _ => .ok (v, ⟨off, 2, comp⟩, processed, ids)

/-- The `decodeGlobalSlots` loop: decode `count` consecutive 16-bit global
values starting at `off`. -/
def decodeGlobalSlots (data : List Nat) (initialHeapOffset : Nat) :
    Nat → Nat → List Nat → AllocIds →
    Except DecodeError (List (Option ILValue) × List ValueMappingEntry)
  | 0, _, _, _ => .ok ([], [])
  | count + 1, off, processed, ids => do
    let (v, entry, processed, ids) ←
      decodeGlobalSlot data initialHeapOffset off processed ids
    let (vs, entries) ←
      decodeGlobalSlots data initialHeapOffset count (off + 2) processed ids
    .ok (v :: vs, entry :: entries)

/-- The result of a successful decode, restricted to the parts of
`SnapshotInfo` that the embedded decoder populates. -/
structure DecodedSnapshot where
  header : SnapshotHeader
  flags : List Nat
  globalSlots : List (Option ILValue)
  globalsMapping : List ValueMappingEntry
deriving DecidableEq, Repr

/-- `decodeSnapshot` (`src/lib.ts` lines 117–222): the header phase with
its validity checks, then `decodeFlags` and `decodeGlobalSlots`.  (The
pretty-printing region bookkeeping, which cannot fail, is not carried.) -/
def decodeSnapshot (data : List Nat) : Except DecodeError DecodedSnapshot := do
  let header ← decodeSnapshotHeader data
  let flags := decodeFlags header.requiredFeatureFlags
  let (globalSlots, globalsMapping) ←
    decodeGlobalSlots data header.initialHeapOffset header.globalVariableCount
      header.initialDataOffset [] ⟨1, []⟩
  .ok { header, flags, globalSlots, globalsMapping }

/-! ## CRC-16-CCITT lemmas

The single-bit step is a bijection on 16-bit states (multiplication by `x`
modulo the generator polynomial, which has a non-zero constant term), so a
change in any single byte of the input propagates to a change in the final
checksum. -/

theorem xor_cancel_right {a b c : Nat} (h : a ^^^ c = b ^^^ c) : a = b := by
  have := congrArg (· ^^^ c) h
  simpa [Nat.xor_assoc] using this

theorem xor_cancel_left {a b c : Nat} (h : c ^^^ a = c ^^^ b) : a = b := by
  have := congrArg (c ^^^ ·) h
  simpa [← Nat.xor_assoc] using this

theorem parity_xor_poly (e : Nat) (he : e % 2 = 0) : (e ^^^ 0x1021) % 2 = 1 := by
  have h1 : (e ^^^ 0x1021).testBit 0 = ((e.testBit 0).xor ((0x1021 : Nat).testBit 0)) :=
    Nat.testBit_xor ..
  rw [Nat.testBit_zero, Nat.testBit_zero, Nat.testBit_zero] at h1
  have h2 : decide (e % 2 = 1) = false := by simp [he]
  rw [h2] at h1
  exact of_decide_eq_true h1

theorem crcStepBit_lt (s : Nat) : crcStepBit s < 65536 := by
  unfold crcStepBit
  split
  · exact Nat.xor_lt_two_pow (n := 16) (Nat.mod_lt _ (by norm_num)) (by norm_num)
  · exact Nat.mod_lt _ (by norm_num)

theorem crcStepBit_inj {s₁ s₂ : Nat} (h₁ : s₁ < 65536) (h₂ : s₂ < 65536)
    (h : crcStepBit s₁ = crcStepBit s₂) : s₁ = s₂ := by
  unfold crcStepBit at h
  split at h <;> split at h
  · rw [show (2 * s₁) % 65536 = 2 * (s₁ - 32768) by omega,
      show (2 * s₂) % 65536 = 2 * (s₂ - 32768) by omega] at h
    have := xor_cancel_right h
    omega
  · exfalso
    rw [show (2 * s₁) % 65536 = 2 * (s₁ - 32768) by omega,
      show (2 * s₂) % 65536 = 2 * s₂ by omega] at h
    have hodd := parity_xor_poly (2 * (s₁ - 32768)) (by omega)
    omega
  · exfalso
    rw [show (2 * s₁) % 65536 = 2 * s₁ by omega,
      show (2 * s₂) % 65536 = 2 * (s₂ - 32768) by omega] at h
    have hodd := parity_xor_poly (2 * (s₂ - 32768)) (by omega)
    omega
  · omega

theorem crcIter_lt (n : Nat) {s : Nat} (h : s < 65536) : (crcStepBit)^[n] s < 65536 := by
  induction n generalizing s with
  | zero => simpa using h
  | succ n ih =>
    rw [Function.iterate_succ_apply]
    exact ih (crcStepBit_lt s)

theorem crcIter_inj (n : Nat) {s₁ s₂ : Nat} (h₁ : s₁ < 65536) (h₂ : s₂ < 65536)
    (h : (crcStepBit)^[n] s₁ = (crcStepBit)^[n] s₂) : s₁ = s₂ := by
  induction n generalizing s₁ s₂ with
  | zero => simpa using h
  | succ n ih =>
    rw [Function.iterate_succ_apply, Function.iterate_succ_apply] at h
    exact crcStepBit_inj h₁ h₂ (ih (crcStepBit_lt s₁) (crcStepBit_lt s₂) h)

theorem crcStepByte_lt (s b : Nat) : crcStepByte s b < 65536 :=
  crcIter_lt 8 (Nat.mod_lt _ (by norm_num))

theorem crcStepByte_inj_state {s₁ s₂ b : Nat} (h₁ : s₁ < 65536) (h₂ : s₂ < 65536)
    (hb : b < 256) (hne : s₁ ≠ s₂) : crcStepByte s₁ b ≠ crcStepByte s₂ b := by
  intro h
  apply hne
  unfold crcStepByte at h
  have hb8 : b <<< 8 < 65536 := by
    rw [Nat.shiftLeft_eq]
    omega
  have e₁ : (s₁ ^^^ b <<< 8) % 65536 = s₁ ^^^ b <<< 8 :=
    Nat.mod_eq_of_lt (Nat.xor_lt_two_pow (n := 16) h₁ hb8)
  have e₂ : (s₂ ^^^ b <<< 8) % 65536 = s₂ ^^^ b <<< 8 :=
    Nat.mod_eq_of_lt (Nat.xor_lt_two_pow (n := 16) h₂ hb8)
  rw [e₁, e₂] at h
  have := crcIter_inj 8 (Nat.xor_lt_two_pow (n := 16) h₁ hb8)
    (Nat.xor_lt_two_pow (n := 16) h₂ hb8) h
  exact xor_cancel_right this

theorem crcStepByte_inj_byte {s b₁ b₂ : Nat} (hs : s < 65536)
    (h₁ : b₁ < 256) (h₂ : b₂ < 256) (hne : b₁ ≠ b₂) :
    crcStepByte s b₁ ≠ crcStepByte s b₂ := by
  intro h
  apply hne
  unfold crcStepByte at h
  have hb₁ : b₁ <<< 8 < 65536 := by rw [Nat.shiftLeft_eq]; omega
  have hb₂ : b₂ <<< 8 < 65536 := by rw [Nat.shiftLeft_eq]; omega
  rw [Nat.mod_eq_of_lt (Nat.xor_lt_two_pow (n := 16) hs hb₁),
    Nat.mod_eq_of_lt (Nat.xor_lt_two_pow (n := 16) hs hb₂)] at h
  have := xor_cancel_left (crcIter_inj 8 (Nat.xor_lt_two_pow (n := 16) hs hb₁)
    (Nat.xor_lt_two_pow (n := 16) hs hb₂) h)
  have e₁ : b₁ <<< 8 = b₁ * 256 := by rw [Nat.shiftLeft_eq]
  have e₂ : b₂ <<< 8 = b₂ * 256 := by rw [Nat.shiftLeft_eq]
  omega

theorem crcFold_lt {l : List Nat} {s : Nat} (hs : s < 65536) :
    l.foldl crcStepByte s < 65536 := by
  induction l generalizing s with
  | nil => simpa using hs
  | cons b l ih =>
    simp only [List.foldl_cons]
    exact ih (crcStepByte_lt s b)

theorem crcFold_ne {l : List Nat} (hl : ∀ b ∈ l, b < 256) {s₁ s₂ : Nat}
    (h₁ : s₁ < 65536) (h₂ : s₂ < 65536) (hne : s₁ ≠ s₂) :
    l.foldl crcStepByte s₁ ≠ l.foldl crcStepByte s₂ := by
  induction l generalizing s₁ s₂ with
  | nil => simpa using hne
  | cons b l ih =>
    simp only [List.foldl_cons]
    exact ih (fun x hx => hl x (List.mem_cons_of_mem _ hx))
      (crcStepByte_lt s₁ b) (crcStepByte_lt s₂ b)
      (crcStepByte_inj_state h₁ h₂ (hl b (List.mem_cons_self ..)) hne)

theorem crcFold_flip_ne (pre : List Nat) {b₁ b₂ : Nat} (suf : List Nat)
    (hpre : ∀ b ∈ pre, b < 256) (hsuf : ∀ b ∈ suf, b < 256)
    (h₁ : b₁ < 256) (h₂ : b₂ < 256) (hne : b₁ ≠ b₂) {s : Nat} (hs : s < 65536) :
    (pre ++ b₁ :: suf).foldl crcStepByte s ≠ (pre ++ b₂ :: suf).foldl crcStepByte s := by
  induction pre generalizing s with
  | nil =>
    simp only [List.nil_append, List.foldl_cons]
    exact crcFold_ne hsuf (crcStepByte_lt s b₁) (crcStepByte_lt s b₂)
      (crcStepByte_inj_byte hs h₁ h₂ hne)
  | cons p pre ih =>
    simp only [List.cons_append, List.foldl_cons]
    exact ih (fun x hx => hpre x (List.mem_cons_of_mem _ hx)) (crcStepByte_lt s p)

/-- Changing one byte of a byte list (all values below 256) changes its
CRC-16-CCITT. -/
theorem crc16ccitt_set_ne {l : List Nat} (hl : ∀ b ∈ l, b < 256) {k v : Nat}
    (hk : k < l.length) (hv : v < 256) (hne : l[k] ≠ v) :
    crc16ccitt (l.set k v) ≠ crc16ccitt l := by
  have hset : l.set k v = l.take k ++ v :: l.drop (k + 1) := by
    rw [List.set_eq_take_append_cons_drop]
    simp [hk]
  have horig : l = l.take k ++ l[k] :: l.drop (k + 1) := by
    conv_lhs => rw [← List.take_append_drop k l]
    rw [List.getElem_cons_drop]
  rw [hset]
  conv_rhs => rw [horig]
  exact crcFold_flip_ne (l.take k) (l.drop (k + 1))
    (fun x hx => hl x (List.take_subset _ _ hx))
    (fun x hx => hl x (List.drop_subset _ _ hx))
    hv (hl _ (List.getElem_mem hk)) (fun h => hne h.symm) (by norm_num)

/-! ## Lemmas about the decoder -/

theorem exbind_ok {ε α β : Type} (a : α) (f : α → Except ε β) :
    (Except.ok a >>= f) = f a := rfl

theorem exbind_error {ε α β : Type} (e : ε) (f : α → Except ε β) :
    ((Except.error e : Except ε α) >>= f) = .error e := rfl

theorem readU8_error_inv {data : List Nat} {off : Nat} {e : DecodeError}
    (h : readU8 data off = .error e) : e = .rangeError := by
  unfold readU8 at h
  cases hg : data[off]? <;> rw [hg] at h <;> cases h <;> rfl

theorem readU16LE_error_inv {data : List Nat} {off : Nat} {e : DecodeError}
    (h : readU16LE data off = .error e) : e = .rangeError := by
  unfold readU16LE at h
  cases h0 : readU8 data off with
  | error e' =>
    rw [h0, exbind_error] at h
    cases h
    exact readU8_error_inv h0
  | ok b =>
    rw [h0, exbind_ok] at h
    cases h1 : readU8 data (off + 1) with
    | error e' =>
      rw [h1, exbind_error] at h
      cases h
      exact readU8_error_inv h1
    | ok b' =>
      rw [h1, exbind_ok] at h
      cases h

theorem readU8_isOk (data : List Nat) (off : Nat) (h : off < data.length) :
    ∃ v, readU8 data off = .ok v := by
  refine ⟨data[off], ?_⟩
  unfold readU8
  rw [List.getElem?_eq_getElem h]

theorem readU16LE_isOk (data : List Nat) (off : Nat) (h : off + 1 < data.length) :
    ∃ v, readU16LE data off = .ok v := by
  obtain ⟨lo, hlo⟩ := readU8_isOk data (off) (by omega)
  obtain ⟨hi, hhi⟩ := readU8_isOk data (off + 1) (by omega)
  exact ⟨lo + 256 * hi, by unfold readU16LE; rw [hlo, exbind_ok, hhi, exbind_ok]⟩

theorem readU32LE_isOk (data : List Nat) (off : Nat) (h : off + 3 < data.length) :
    ∃ v, readU32LE data off = .ok v := by
  obtain ⟨lo, hlo⟩ := readU16LE_isOk data (off) (by omega)
  obtain ⟨hi, hhi⟩ := readU16LE_isOk data (off + 2) (by omega)
  exact ⟨lo + 65536 * hi, by unfold readU32LE; rw [hlo, exbind_ok, hhi, exbind_ok]⟩

theorem readU8_set_ne {data : List Nat} {i v j : Nat} (h : j ≠ i) :
    readU8 (data.set i v) j = readU8 data j := by
  unfold readU8
  rw [List.getElem?_set_ne (fun he => h he.symm)]

theorem readU16LE_set_ne {data : List Nat} {i v j : Nat} (h1 : j ≠ i) (h2 : j + 1 ≠ i) :
    readU16LE (data.set i v) j = readU16LE data j := by
  unfold readU16LE
  rw [readU8_set_ne h1, readU8_set_ne h2]

/-- Inversion for a successful header phase: all the reads it depends on
succeeded and all five checks held. -/
theorem decodeSnapshotHeader_ok_inv {data : List Nat} {h : SnapshotHeader}
    (hok : decodeSnapshotHeader data = .ok h) :
    readU8 data 0 = .ok BYTECODE_VERSION ∧ readU8 data 1 = .ok HEADER_SIZE ∧
    readU16LE data 2 = .ok data.length ∧
    readU16LE data 4 = .ok (crc16ccitt (data.drop 6)) ∧
    readU16LE data 6 = .ok ENGINE_VERSION ∧
    h.bytecodeSize = data.length ∧ h.headerSize = HEADER_SIZE ∧
    h.expectedCRC = crc16ccitt (data.drop 6) ∧ h.bytecodeVersion = BYTECODE_VERSION ∧
    h.requiredEngineVersion = ENGINE_VERSION := by
  unfold decodeSnapshotHeader at hok
  simp only [bind, Except.bind] at hok
  repeat' split at hok
  all_goals cases hok
  refine ⟨?_, ?_, ?_, ?_, ?_, ?_, ?_, ?_, ?_, ?_⟩ <;> simp_all

theorem decodeAllocation_error_kinds {data : List Nat} {iho address : Nat}
    {processed : List Nat} {e : DecodeError}
    (h : decodeAllocation data iho address processed = .error e) :
    e = .rangeError ∨ e = .notImplementedErr ∨ e = .unexpectedErr := by
  unfold decodeAllocation at h
  dsimp only at h
  split at h
  · cases h
  · split at h
    · cases h
      simp
    · split at h
      · split at h
        · cases h
          simp
        · cases hr : readU16LE data (iho + (address - VM_TAG_GC_P) - 2) with
          | error e' =>
            rw [hr, exbind_error] at h
            cases h
            simp [readU16LE_error_inv hr]
          | ok w =>
            rw [hr, exbind_ok] at h
            split at h
            · split at h
              · cases h
                simp
              · cases hr2 : readU16LE data (iho + (address - VM_TAG_GC_P) - 4) with
                | error e' =>
                  rw [hr2, exbind_error] at h
                  cases h
                  simp [readU16LE_error_inv hr2]
                | ok w2 =>
                  rw [hr2, exbind_ok] at h
                  split at h
                  · cases h
                    simp
                  · cases h
            · cases h
      · cases h

theorem decodeGlobalSlot_error_kinds {data : List Nat} {iho off : Nat}
    {processed : List Nat} {ids : AllocIds} {e : DecodeError}
    (h : decodeGlobalSlot data iho off processed ids = .error e) :
    e = .rangeError ∨ e = .notImplementedErr ∨ e = .unexpectedErr := by
  unfold decodeGlobalSlot at h
  cases hr : readU16LE data off with
  | error e' =>
    rw [hr, exbind_error] at h
    cases h
    simp [readU16LE_error_inv hr]
  | ok u16 =>
    rw [hr, exbind_ok] at h
    split at h
    · cases h
      simp
    · split at h
      · rename_i address heq
        split at h
        rename_i id ids2 haid
        cases ha : decodeAllocation data iho address processed with
        | error e' =>
          rw [ha, exbind_error] at h
          cases h
          exact decodeAllocation_error_kinds ha
        | ok pr =>
          rw [ha, exbind_ok] at h
          cases h
      · cases h

theorem decodeGlobalSlots_error_kinds {data : List Nat} {iho : Nat} :
    ∀ {count off : Nat} {processed : List Nat} {ids : AllocIds} {e : DecodeError},
    decodeGlobalSlots data iho count off processed ids = .error e →
    e = .rangeError ∨ e = .notImplementedErr ∨ e = .unexpectedErr := by
  intro count
  induction count with
  | zero => intro off processed ids e h; cases h
  | succ n ih =>
    intro off processed ids e h
    unfold decodeGlobalSlots at h
    cases hs : decodeGlobalSlot data iho off processed ids with
    | error e' =>
      rw [hs, exbind_error] at h
      cases h
      exact decodeGlobalSlot_error_kinds hs
    | ok out =>
      obtain ⟨v, entry, processed', ids'⟩ := out
      rw [hs, exbind_ok] at h
      dsimp only at h
      cases hrest : decodeGlobalSlots data iho n (off + 2) processed' ids' with
      | error e' =>
        rw [hrest, exbind_error] at h
        cases h
        exact ih hrest
      | ok out' =>
        obtain ⟨vs, entries⟩ := out'
        rw [hrest, exbind_ok] at h
        cases h

/-! ## Claim C3 -/

/-- C3 (refuted as stated — the code has a boundary slip): `decodeValue`
does treat every 16-bit word with zero top bits as an inline integer, and
words strictly greater than `0x2000` do decode to `word − 0x4000`; but the
word `0x2000` itself — whose top two bits are zero, so it is an inline
integer word — decodes to `+0x2000 = 8192`, which lies outside the claimed
(and spec-mandated) inline range `−0x2000..+0x1FFF`; 14-bit
two's-complement interpretation would give `−0x2000`.  The comparison in
`src/lib.ts` line 330 is `u16 > 0x2000` where the two's-complement reading
(and the spec's range) requires `u16 >= 0x2000`. -/
theorem C3_decodeValue_inline_boundary :
    (0x2000 : Nat) &&& 0xC000 = 0 ∧
    decodeValue 0x2000 = .ok (some (.num 8192), .value) ∧
    ¬((8192 : Int) ≤ 0x1FFF) ∧
    (∀ u16 : Nat, u16 &&& 0xC000 = 0 → 0x2000 < u16 →
      decodeValue u16 = .ok (some (.num ((u16 : Int) - 0x4000)), .value)) := by
  refine ⟨by decide, by rfl, by decide, ?_⟩
  intro u16 htag hgt
  unfold decodeValue
  rw [if_pos htag, if_pos hgt]

/-! ## Claim C8 -/

/-- C8: `decodeValue` yields no value exactly for the well-known
`VM_VALUE_DELETED` word, in which case (and only in that case) the mapping
component recorded is `DeletedValue`; each of the other well-known
constants in the reserved `PGM_P` prefix decodes to its corresponding IL
value with a `Value` component; and the mapping entry recorded by the
globals decoder for any decoded word is 2 bytes wide at the read offset. -/
theorem C8_decodeValue_deleted_iff :
    (∀ u16 : Nat, ∀ v : Option ILValue, ∀ c : MappingComponent,
      decodeValue u16 = .ok (v, c) →
      (v = none ↔ u16 = VM_VALUE_DELETED) ∧ (v = none ↔ c = .deletedValue)) ∧
    decodeValue VM_VALUE_DELETED = .ok (none, .deletedValue) ∧
    decodeValue VM_VALUE_UNDEFINED = .ok (some .undef, .value) ∧
    decodeValue VM_VALUE_NULL = .ok (some .null, .value) ∧
    decodeValue VM_VALUE_TRUE = .ok (some (.boolean true), .value) ∧
    decodeValue VM_VALUE_FALSE = .ok (some (.boolean false), .value) ∧
    decodeValue VM_VALUE_NAN = .ok (some .nan, .value) ∧
    decodeValue VM_VALUE_NEG_ZERO = .ok (some .negZero, .value) ∧
    (∀ data : List Nat, ∀ iho off : Nat, ∀ pr : List Nat, ∀ ids : AllocIds,
      ∀ out, decodeGlobalSlot data iho off pr ids = .ok out →
      out.2.1.size = 2 ∧ out.2.1.offset = off) := by
  refine ⟨?_, by rfl, by rfl, by rfl, by rfl, by rfl, by rfl, by rfl, ?_⟩
  · intro u16 v c h
    unfold decodeValue at h
    by_cases h1 : u16 &&& 0xC000 = 0
    · rw [if_pos h1] at h
      injection h with h
      injection h with hv hc
      subst hv
      subst hc
      refine ⟨⟨fun hveq => absurd hveq (fun hx => nomatch hx), fun hu => ?_⟩,
        ⟨fun hveq => absurd hveq (fun hx => nomatch hx), fun hceq => absurd hceq (fun hx => nomatch hx)⟩⟩
      subst hu
      exact absurd h1 (by decide)
    · rw [if_neg h1] at h
      by_cases h2 : u16 &&& 0xC000 = VM_TAG_PGM_P ∧ u16 < VM_VALUE_WELLKNOWN_END
      · rw [if_pos h2] at h
        split_ifs at h with h3 h4 h5 h6 h7 h8 h9
        · injection h with h
          injection h with hv hc
          subst hv; subst hc; subst h3
          refine ⟨⟨fun hveq => absurd hveq (fun hx => nomatch hx), fun hu => absurd hu (by decide)⟩,
            ⟨fun hveq => absurd hveq (fun hx => nomatch hx), fun hceq => absurd hceq (fun hx => nomatch hx)⟩⟩
        · injection h with h
          injection h with hv hc
          subst hv; subst hc; subst h4
          refine ⟨⟨fun hveq => absurd hveq (fun hx => nomatch hx), fun hu => absurd hu (by decide)⟩,
            ⟨fun hveq => absurd hveq (fun hx => nomatch hx), fun hceq => absurd hceq (fun hx => nomatch hx)⟩⟩
        · injection h with h
          injection h with hv hc
          subst hv; subst hc; subst h5
          refine ⟨⟨fun hveq => absurd hveq (fun hx => nomatch hx), fun hu => absurd hu (by decide)⟩,
            ⟨fun hveq => absurd hveq (fun hx => nomatch hx), fun hceq => absurd hceq (fun hx => nomatch hx)⟩⟩
        · injection h with h
          injection h with hv hc
          subst hv; subst hc; subst h6
          refine ⟨⟨fun hveq => absurd hveq (fun hx => nomatch hx), fun hu => absurd hu (by decide)⟩,
            ⟨fun hveq => absurd hveq (fun hx => nomatch hx), fun hceq => absurd hceq (fun hx => nomatch hx)⟩⟩
        · injection h with h
          injection h with hv hc
          subst hv; subst hc; subst h7
          refine ⟨⟨fun hveq => absurd hveq (fun hx => nomatch hx), fun hu => absurd hu (by decide)⟩,
            ⟨fun hveq => absurd hveq (fun hx => nomatch hx), fun hceq => absurd hceq (fun hx => nomatch hx)⟩⟩
        · injection h with h
          injection h with hv hc
          subst hv; subst hc; subst h8
          refine ⟨⟨fun hveq => absurd hveq (fun hx => nomatch hx), fun hu => absurd hu (by decide)⟩,
            ⟨fun hveq => absurd hveq (fun hx => nomatch hx), fun hceq => absurd hceq (fun hx => nomatch hx)⟩⟩
        · injection h with h
          injection h with hv hc
          subst hv; subst hc
          exact ⟨⟨fun _ => h9, fun _ => rfl⟩, ⟨fun _ => rfl, fun _ => rfl⟩⟩
      · rw [if_neg h2] at h
        injection h with h
        injection h with hv hc
        subst hv
        subst hc
        refine ⟨⟨fun hveq => absurd hveq (fun hx => nomatch hx), fun hu => ?_⟩,
          ⟨fun hveq => absurd hveq (fun hx => nomatch hx), fun hceq => absurd hceq (fun hx => nomatch hx)⟩⟩
        subst hu
        exact absurd (by decide : (0xC006 : Nat) &&& 0xC000 = VM_TAG_PGM_P ∧
          (0xC006 : Nat) < VM_VALUE_WELLKNOWN_END) h2
  · intro data iho off pr ids out h
    unfold decodeGlobalSlot at h
    cases hr : readU16LE data off with
    | error e =>
      rw [hr, exbind_error] at h
      cases h
    | ok u16 =>
      rw [hr, exbind_ok] at h
      split at h
      · cases h
      · split at h
        · rename_i address heq
          split at h
          rename_i id ids2 haid
          cases ha : decodeAllocation data iho address pr with
          | error e =>
            rw [ha, exbind_error] at h
            cases h
          | ok pr' =>
            rw [ha, exbind_ok] at h
            cases h
            exact ⟨rfl, rfl⟩
        · cases h
          exact ⟨rfl, rfl⟩

/-- Witness for C8: the theorem applied at the concrete word `0xC006`
(deleted) and at a concrete globals-decoder run. -/
theorem C8_witness :
    (((none : Option ILValue) = none ↔ (0xC006 : Nat) = VM_VALUE_DELETED) ∧
      ((none : Option ILValue) = none ↔ MappingComponent.deletedValue = .deletedValue)) ∧
    ((⟨0, 2, MappingComponent.value⟩ : ValueMappingEntry).size = 2 ∧
      (⟨0, 2, MappingComponent.value⟩ : ValueMappingEntry).offset = 0) :=
  ⟨C8_decodeValue_deleted_iff.1 0xC006 none .deletedValue (by rfl),
    C8_decodeValue_deleted_iff.2.2.2.2.2.2.2.2 [7, 0] 0 0 [] ⟨1, []⟩
      (some (.num 7), ⟨0, 2, .value⟩, [], ⟨1, []⟩) (by rfl)⟩

/-! ## Claim C2 -/

/-- A 42-byte snapshot whose header passes every validity check
(size, header size, CRC, bytecode version, engine version) but whose
`globalVariableCount` is 1 with `initialDataOffset` pointing at the end of
the buffer, so the globals decoder reads past the end. -/
def cexSnapshot : List Nat :=
  [1, 42, 42, 0, 135, 39, 0, 0, 0, 0, 0, 0, 1, 0, 42, 0] ++ List.replicate 26 0

/-- C2 counterexample: a snapshot that passes all of `decodeSnapshot`'s
header validity checks and is nevertheless not decoded without error — the
structural phase fails (with a buffer range error), refuting the claim's
final conjunct ("a snapshot passing all these checks is decoded without
error"). -/
theorem C2_counterexample :
    decodeSnapshotHeader cexSnapshot =
      .ok { bytecodeVersion := 1, headerSize := 42, bytecodeSize := 42,
            expectedCRC := 10119, requiredEngineVersion := 0,
            requiredFeatureFlags := 0, globalVariableCount := 1,
            initialDataOffset := 42, initialDataSize := 0,
            initialHeapOffset := 0, initialHeapSize := 0, gcRootsOffset := 0,
            gcRootsCount := 0, importTableOffset := 0, importTableSize := 0,
            exportTableOffset := 0, exportTableSize := 0,
            shortCallTableOffset := 0, shortCallTableSize := 0,
            stringTableOffset := 0, stringTableSize := 0 } ∧
    decodeSnapshot cexSnapshot = .error .rangeError :=
  ⟨by rfl, by rfl⟩

/-- C2 (amended): `decodeSnapshot` fails with a size mismatch when the
`bytecodeSize` field differs from the buffer length; with a header-size
error when `headerSize` differs from `HEADER_SIZE` (size being right);
with a CRC mismatch when the CRC-16-CCITT of bytes `[6, end)` differs from
`expectedCRC` (in particular, flipping any byte at offset ≥ 6 of a
snapshot with a valid header makes decoding fail with a CRC mismatch);
with a version error when `bytecodeVersion` or `requiredEngineVersion` is
not the supported constant; a successful header phase implies all five
checks held; and after the checks pass the only possible failures are
structural (buffer range, unimplemented content, or internal errors) — in
particular there is no required-feature-flags check and no feature-flag
rejection. -/
theorem C2_decodeSnapshot_validation :
    (∀ data : List Nat, ∀ bv hs bs crc : Nat,
      readU8 data 0 = .ok bv → readU8 data 1 = .ok hs →
      readU16LE data 2 = .ok bs → readU16LE data 4 = .ok crc →
      (bs ≠ data.length → decodeSnapshot data = .error .sizeMismatch) ∧
      (bs = data.length → hs ≠ HEADER_SIZE →
        decodeSnapshot data = .error .headerSizeUnexpected) ∧
      (bs = data.length → hs = HEADER_SIZE → crc16ccitt (data.drop 6) ≠ crc →
        decodeSnapshot data = .error .crcMismatch) ∧
      (bs = data.length → hs = HEADER_SIZE → crc16ccitt (data.drop 6) = crc →
        bv ≠ BYTECODE_VERSION →
        decodeSnapshot data = .error .bytecodeVersionNotSupported) ∧
      (∀ ver : Nat, readU16LE data 6 = .ok ver → 42 ≤ data.length →
        bs = data.length → hs = HEADER_SIZE → crc16ccitt (data.drop 6) = crc →
        bv = BYTECODE_VERSION → ver ≠ ENGINE_VERSION →
        decodeSnapshot data = .error .engineVersionNotSupported)) ∧
    (∀ data : List Nat, ∀ h : SnapshotHeader, decodeSnapshotHeader data = .ok h →
      h.bytecodeSize = data.length ∧ h.headerSize = HEADER_SIZE ∧
      h.expectedCRC = crc16ccitt (data.drop 6) ∧
      h.bytecodeVersion = BYTECODE_VERSION ∧
      h.requiredEngineVersion = ENGINE_VERSION) ∧
    (∀ data : List Nat, ∀ h : SnapshotHeader, decodeSnapshotHeader data = .ok h →
      (∀ b ∈ data, b < 256) → ∀ i v : Nat, 6 ≤ i → ∀ hi : i < data.length,
      v < 256 → data[i] ≠ v →
      decodeSnapshot (data.set i v) = .error .crcMismatch) ∧
    (∀ data : List Nat, ∀ h : SnapshotHeader, ∀ e : DecodeError,
      decodeSnapshotHeader data = .ok h → decodeSnapshot data = .error e →
      e = .rangeError ∨ e = .notImplementedErr ∨ e = .unexpectedErr) := by
  refine ⟨?_, ?_, ?_, ?_⟩
  · intro data bv hs bs crc hr0 hr1 hr2 hr4
    refine ⟨?_, ?_, ?_, ?_, ?_⟩
    · intro hbs
      have hh : decodeSnapshotHeader data = .error .sizeMismatch := by
        unfold decodeSnapshotHeader
        rw [hr0, exbind_ok, hr1, exbind_ok, hr2, exbind_ok, hr4, exbind_ok, if_pos hbs]
      unfold decodeSnapshot
      rw [hh, exbind_error]
    · intro hbs hhs
      have hh : decodeSnapshotHeader data = .error .headerSizeUnexpected := by
        unfold decodeSnapshotHeader
        rw [hr0, exbind_ok, hr1, exbind_ok, hr2, exbind_ok, hr4, exbind_ok,
          if_neg (by simp [hbs]), if_pos hhs]
      unfold decodeSnapshot
      rw [hh, exbind_error]
    · intro hbs hhs hcrc
      have hh : decodeSnapshotHeader data = .error .crcMismatch := by
        unfold decodeSnapshotHeader
        rw [hr0, exbind_ok, hr1, exbind_ok, hr2, exbind_ok, hr4, exbind_ok,
          if_neg (by simp [hbs]), if_neg (by simp [hhs]), if_pos hcrc]
      unfold decodeSnapshot
      rw [hh, exbind_error]
    · intro hbs hhs hcrc hbv
      have hh : decodeSnapshotHeader data = .error .bytecodeVersionNotSupported := by
        unfold decodeSnapshotHeader
        rw [hr0, exbind_ok, hr1, exbind_ok, hr2, exbind_ok, hr4, exbind_ok,
          if_neg (by simp [hbs]), if_neg (by simp [hhs]), if_neg (by simp [hcrc]),
          if_pos hbv]
      unfold decodeSnapshot
      rw [hh, exbind_error]
    · intro ver hr6 hlen hbs hhs hcrc hbv hver
      obtain ⟨v8, h8⟩ := readU32LE_isOk data (8) (by omega)
      obtain ⟨v12, h12⟩ := readU16LE_isOk data (12) (by omega)
      obtain ⟨v14, h14⟩ := readU16LE_isOk data (14) (by omega)
      obtain ⟨v16, h16⟩ := readU16LE_isOk data (16) (by omega)
      obtain ⟨v18, h18⟩ := readU16LE_isOk data (18) (by omega)
      obtain ⟨v20, h20⟩ := readU16LE_isOk data (20) (by omega)
      obtain ⟨v22, h22⟩ := readU16LE_isOk data (22) (by omega)
      obtain ⟨v24, h24⟩ := readU16LE_isOk data (24) (by omega)
      obtain ⟨v26, h26⟩ := readU16LE_isOk data (26) (by omega)
      obtain ⟨v28, h28⟩ := readU16LE_isOk data (28) (by omega)
      obtain ⟨v30, h30⟩ := readU16LE_isOk data (30) (by omega)
      obtain ⟨v32, h32⟩ := readU16LE_isOk data (32) (by omega)
      obtain ⟨v34, h34⟩ := readU16LE_isOk data (34) (by omega)
      obtain ⟨v36, h36⟩ := readU16LE_isOk data (36) (by omega)
      obtain ⟨v38, h38⟩ := readU16LE_isOk data (38) (by omega)
      obtain ⟨v40, h40⟩ := readU16LE_isOk data (40) (by omega)
      have hh : decodeSnapshotHeader data = .error .engineVersionNotSupported := by
        unfold decodeSnapshotHeader
        rw [hr0, exbind_ok, hr1, exbind_ok, hr2, exbind_ok, hr4, exbind_ok,
          if_neg (by simp [hbs]), if_neg (by simp [hhs]), if_neg (by simp [hcrc]),
          if_neg (by simp [hbv]), hr6, exbind_ok, h8, exbind_ok, h12, exbind_ok,
          h14, exbind_ok, h16, exbind_ok, h18, exbind_ok, h20, exbind_ok,
          h22, exbind_ok, h24, exbind_ok, h26, exbind_ok, h28, exbind_ok,
          h30, exbind_ok, h32, exbind_ok, h34, exbind_ok, h36, exbind_ok,
          h38, exbind_ok, h40, exbind_ok, if_pos hver]
      unfold decodeSnapshot
      rw [hh, exbind_error]
  · intro data h hok
    obtain ⟨_, _, _, _, _, hrest⟩ := decodeSnapshotHeader_ok_inv hok
    exact hrest
  · intro data h hok hbytes i v hi6 hil hv hne
    obtain ⟨hr0, hr1, hr2, hr4, _⟩ := decodeSnapshotHeader_ok_inv hok
    have f0 : readU8 (data.set i v) 0 = .ok BYTECODE_VERSION := by
      rw [readU8_set_ne (by omega)]; exact hr0
    have f1 : readU8 (data.set i v) 1 = .ok HEADER_SIZE := by
      rw [readU8_set_ne (by omega)]; exact hr1
    have f2 : readU16LE (data.set i v) 2 = .ok data.length := by
      rw [readU16LE_set_ne (by omega) (by omega)]; exact hr2
    have f4 : readU16LE (data.set i v) 4 = .ok (crc16ccitt (data.drop 6)) := by
      rw [readU16LE_set_ne (by omega) (by omega)]; exact hr4
    have hk : i - 6 < (data.drop 6).length := by
      rw [List.length_drop]; omega
    have hdropset : (data.set i v).drop 6 = (data.drop 6).set (i - 6) v := by
      rw [List.drop_set, if_neg (by omega)]
    have hidx : (data.drop 6)[i - 6] = data[i] := by
      rw [List.getElem_drop]
      congr 1
      omega
    have fcrc : crc16ccitt ((data.set i v).drop 6) ≠ crc16ccitt (data.drop 6) := by
      rw [hdropset]
      exact crc16ccitt_set_ne (fun b hb => hbytes b (List.drop_subset _ _ hb)) hk hv
        (by rw [hidx]; exact hne)
    have hh : decodeSnapshotHeader (data.set i v) = .error .crcMismatch := by
      unfold decodeSnapshotHeader
      rw [f0, exbind_ok, f1, exbind_ok, f2, exbind_ok, f4, exbind_ok,
        if_neg (by simp [List.length_set]), if_neg (by simp), if_pos fcrc]
    unfold decodeSnapshot
    rw [hh, exbind_error]
  · intro data h e hok herr
    unfold decodeSnapshot at herr
    rw [hok, exbind_ok] at herr
    cases hg : decodeGlobalSlots data h.initialHeapOffset h.globalVariableCount
        h.initialDataOffset [] ⟨1, []⟩ with
    | error e' =>
      rw [hg, exbind_error] at herr
      cases herr
      exact decodeGlobalSlots_error_kinds hg
    | ok out =>
      obtain ⟨vs, entries⟩ := out
      rw [hg, exbind_ok] at herr
      cases herr

/-- Witness for C2: the amended theorem applied at concrete snapshots —
a 6-byte image whose size field is wrong (size mismatch), and the valid
`cexSnapshot` with byte 6 flipped (CRC mismatch). -/
theorem C2_witness :
    decodeSnapshot [1, 42, 9, 0, 0, 0] = .error .sizeMismatch ∧
    decodeSnapshot (cexSnapshot.set 6 1) = .error .crcMismatch :=
  ⟨((C2_decodeSnapshot_validation.1 [1, 42, 9, 0, 0, 0] 1 42 9 0
      (by rfl) (by rfl) (by rfl) (by rfl)).1 (by decide)),
    C2_decodeSnapshot_validation.2.2.1 cexSnapshot
      { bytecodeVersion := 1, headerSize := 42, bytecodeSize := 42,
        expectedCRC := 10119, requiredEngineVersion := 0,
        requiredFeatureFlags := 0, globalVariableCount := 1,
        initialDataOffset := 42, initialDataSize := 0,
        initialHeapOffset := 0, initialHeapSize := 0, gcRootsOffset := 0,
        gcRootsCount := 0, importTableOffset := 0, importTableSize := 0,
        exportTableOffset := 0, exportTableSize := 0,
        shortCallTableOffset := 0, shortCallTableSize := 0,
        stringTableOffset := 0, stringTableSize := 0 }
      (by rfl) (by decide) 6 1 (by decide) (by decide) (by decide) (by decide)⟩

/-! ## Pass 2 of scope analysis: slot computation

Embedding of `computeFunctionSlots`, `computeIlFunctionParameterSlots` and
`createLocalOrClosureSlot` from
`src/lib/src-to-il/analyze-scopes/pass-2-compute-slots.ts` (lines
129–315).  The scope model is the tree of function and block scopes with
the per-binding flags pass 1 computed; slot assignments are returned as an
explicit list (tagged with which loop assigned them) instead of being
written into the mutable `binding.slot` field. -/

/-- Binding kinds (`Binding.kind` in the analysis model). -/
inductive BindingKind where
  | varKind
  | letKind
  | constKind
  | paramKind
  | thisKind
  | importKind
  | exportKind
deriving DecidableEq, Repr

/-- A binding as pass 2 sees it: its pass-1 flags, and whether a slot was
already assigned at module level (`binding.slot` non-empty, which makes the
function-level loops skip it). -/
structure Binding where
  name : String
  kind : BindingKind
  isWrittenTo : Bool
  isAccessedByNestedFunction : Bool
  hasPreassignedSlot : Bool
deriving DecidableEq, Repr

/-- The slots `computeFunctionSlots` can produce (`LocalSlot`,
`ArgumentSlot`, `ClosureSlot` in the analysis model). -/
inductive Slot where
  | localSlot (index : Nat)
  | argumentSlot (argIndex : Nat)
  | closureSlot (index : Nat)
deriving DecidableEq, Repr

/-- Scope-prologue steps (the analysis model's prologue pseudo-ops). -/
inductive PrologueStep where
  | scopePush (slotCount : Nat)
  | initVarDeclaration (slot : Slot)
  | initLexicalDeclaration (slot : Slot)
  | initFunctionDeclaration (functionId : String) (functionIsClosure : Bool) (slot : Slot)
  | initParameter (argIndex : Nat) (slot : Slot)
  | initThis (slot : Slot)
deriving DecidableEq, Repr

/-- Which loop of pass 2 produced an assignment (bookkeeping added by the
embedding so the theorems can speak about provenance). -/
inductive SlotOrigin where
  | thisOrigin
  | paramOrigin (i : Nat)
  | varOrigin
  | funcDeclOrigin
  | lexicalOrigin
deriving DecidableEq, Repr

/-- One slot assignment `binding.slot := slot` performed by pass 2. -/
structure SlotAssignment where
  origin : SlotOrigin
  binding : Binding
  slot : Slot
deriving DecidableEq, Repr

/-- The scope tree over which `computeFunctionSlots` recurses: function
scopes (with `this`, parameters and hoisted `var`s; a module scope is the
degenerate case with no `this` and no parameters) and block scopes.  Each
scope carries its nested function declarations (binding, IL function id,
`functionIsClosure`), its lexical declarations, and its child scopes. -/
inductive ScopeTree where
  | funcScope (thisBinding : Option Binding) (parameterBindings : List Binding)
      (varDeclarations : List Binding)
      (nestedFunctionDeclarations : List (Binding × String × Bool))
      (lexicalDeclarations : List Binding)
      (children : List ScopeTree)
  | blockScope (nestedFunctionDeclarations : List (Binding × String × Bool))
      (lexicalDeclarations : List Binding)
      (children : List ScopeTree)

/-- Pass-2 failures: a `hardAssert` or `unexpected()` firing. -/
inductive Pass2Error where
  | assertionFailed
deriving DecidableEq, Repr

/-- The `this`-binding part of `computeIlFunctionParameterSlots` (lines
261–284): `hardAssert(!thisBinding.isWrittenTo)`; a captured `this` gets
the next closure slot and an `InitThis` prologue step, otherwise
`ArgumentSlot 0` with no prologue step.  `cc` is the next closure-slot
index. -/
def computeThisSlot (thisB : Option Binding) (cc : Nat) :
    Except Pass2Error (List SlotAssignment × List PrologueStep × Nat) :=
  match thisB with
  | none => .ok ([], [], cc)
  | some tb =>
    if tb.isWrittenTo then .error .assertionFailed
    else if tb.isAccessedByNestedFunction then
      .ok ([⟨.thisOrigin, tb, .closureSlot cc⟩], [.initThis (.closureSlot cc)], cc + 1)
    else
      .ok ([⟨.thisOrigin, tb, .argumentSlot 0⟩], [], cc)

/-- The named-parameter loop of `computeIlFunctionParameterSlots` (lines
287–314): parameter `paramI` has `argIndex = paramI + 1`; captured → next
closure slot plus `InitParameter`; written but not captured → next local
stack slot plus `InitParameter`; otherwise `ArgumentSlot argIndex` with no
prologue step.  `cc`/`sd` are the next closure-slot index and the stack
depth. -/
def computeParamSlots (params : List Binding) (paramI cc sd : Nat) :
    List SlotAssignment × List PrologueStep × Nat × Nat :=
  match params with
  | [] => ([], [], cc, sd)
  | b :: rest =>
    let argIndex := paramI + 1
    if b.isAccessedByNestedFunction then
      let (asRest, psRest, cc', sd') := computeParamSlots rest (paramI + 1) (cc + 1) sd
      (⟨.paramOrigin paramI, b, .closureSlot cc⟩ :: asRest,
        .initParameter argIndex (.closureSlot cc) :: psRest, cc', sd')
    else if b.isWrittenTo then
      let (asRest, psRest, cc', sd') := computeParamSlots rest (paramI + 1) cc (sd + 1)
      (⟨.paramOrigin paramI, b, .localSlot sd⟩ :: asRest,
        .initParameter argIndex (.localSlot sd) :: psRest, cc', sd')
    else
      let (asRest, psRest, cc', sd') := computeParamSlots rest (paramI + 1) cc sd
      (⟨.paramOrigin paramI, b, .argumentSlot argIndex⟩ :: asRest, psRest, cc', sd')

/-- `createLocalOrClosureSlot` (lines 240–249): asserts the binding has no
slot yet; a captured binding gets the next closure slot, otherwise the
next local (stack) slot. -/
def createLocalOrClosureSlot (b : Binding) (cc sd : Nat) :
    Except Pass2Error (Slot × Nat × Nat) :=
  if b.hasPreassignedSlot then .error .assertionFailed
  else if b.isAccessedByNestedFunction then .ok (.closureSlot cc, cc + 1, sd)
  else .ok (.localSlot sd, cc, sd + 1)

/-- The hoisted-`var` loop of `computeFunctionSlots` (lines 149–161):
bindings with a module-level slot are skipped; the binding must be a
`var`; the slot comes from `createLocalOrClosureSlot` and an
`InitVarDeclaration` is pushed onto the function prologue. -/
def computeVarSlots (vars : List Binding) (cc sd : Nat) :
    Except Pass2Error (List SlotAssignment × List PrologueStep × Nat × Nat) :=
  match vars with
  | [] => .ok ([], [], cc, sd)
  | b :: rest =>
    if b.hasPreassignedSlot then computeVarSlots rest cc sd
    else if b.kind ≠ .varKind then .error .assertionFailed
    else do
      let (slot, cc, sd) ← createLocalOrClosureSlot b cc sd
      let (asRest, psRest, cc, sd) ← computeVarSlots rest cc sd
      .ok (⟨.varOrigin, b, slot⟩ :: asRest, .initVarDeclaration slot :: psRest, cc, sd)

/-- The nested-function-declaration loop of `computeBlockSlots` (lines
189–209): skip bindings with module-level slots; otherwise
`createLocalOrClosureSlot` plus an `InitFunctionDeclaration` prologue
step on this block's prologue. -/
def computeFuncDeclSlots (nfds : List (Binding × String × Bool)) (cc sd : Nat) :
    Except Pass2Error (List SlotAssignment × List PrologueStep × Nat × Nat) :=
  match nfds with
  | [] => .ok ([], [], cc, sd)
  | (b, functionId, functionIsClosure) :: rest =>
    if b.hasPreassignedSlot then computeFuncDeclSlots rest cc sd
    else do
      let (slot, cc, sd) ← createLocalOrClosureSlot b cc sd
      let (asRest, psRest, cc, sd) ← computeFuncDeclSlots rest cc sd
      .ok (⟨.funcDeclOrigin, b, slot⟩ :: asRest,
        .initFunctionDeclaration functionId functionIsClosure slot :: psRest, cc, sd)

/-- The lexical-declaration loop of `computeBlockSlots` (lines 211–223):
skip bindings with module-level slots; otherwise `createLocalOrClosureSlot`
plus an `InitLexicalDeclaration` prologue step. -/
def computeLexicalSlots (lexs : List Binding) (cc sd : Nat) :
    Except Pass2Error (List SlotAssignment × List PrologueStep × Nat × Nat) :=
  match lexs with
  | [] => .ok ([], [], cc, sd)
  | b :: rest =>
    if b.hasPreassignedSlot then computeLexicalSlots rest cc sd
    else do
      let (slot, cc, sd) ← createLocalOrClosureSlot b cc sd
      let (asRest, psRest, cc, sd) ← computeLexicalSlots rest cc sd
      .ok (⟨.lexicalOrigin, b, slot⟩ :: asRest, .initLexicalDeclaration slot :: psRest, cc, sd)

mutual

/-- `computeFunctionSlots` (lines 129–250): parameters (for a function
scope), hoisted `var`s, then `computeBlockSlots` on the scope's own block
(nested function declarations, lexical declarations, children); finally a
`ScopePush` is prepended to the prologue iff any closure slot was
allocated.  Returns all slot assignments performed in this function
(including inside nested functions) and this function's prologue. -/
def computeFunctionSlots : ScopeTree →
    Except Pass2Error (List SlotAssignment × List PrologueStep)
  | .funcScope thisB params vars nfds lexs children => do
    let (asThis, psThis, cc) ← computeThisSlot thisB 0
    let (asP, psP, cc, sd) := computeParamSlots params 0 cc 0
    let (asV, psV, cc, sd) ← computeVarSlots vars cc sd
    let (asB, psB, cc, _sd) ← computeBlockParts nfds lexs children cc sd
    let prologue := psThis ++ psP ++ psV ++ psB
    let prologue := if cc > 0 then .scopePush cc :: prologue else prologue
    .ok (asThis ++ asP ++ asV ++ asB, prologue)
  | .blockScope _ _ _ => .error .assertionFailed

/-- The body of `computeBlockSlots` (lines 175–238): nested function
declarations, then lexical declarations, then recursion into children
(block children share the closure-slot and stack-depth counters; function
children restart both).  The caller restores the stack depth afterwards
(`stackDepth = blockStartStackDepth`). -/
def computeBlockParts (nfds : List (Binding × String × Bool)) (lexs : List Binding)
    (children : List ScopeTree) (cc sd : Nat) :
    Except Pass2Error (List SlotAssignment × List PrologueStep × Nat × Nat) := do
  let (asF, psF, cc, sd) ← computeFuncDeclSlots nfds cc sd
  let (asL, psL, cc, sd) ← computeLexicalSlots lexs cc sd
  let (asC, cc, sd) ← computeChildren children cc sd
  .ok (asF ++ asL ++ asC, psF ++ psL, cc, sd)

/-- The child-scope loop of `computeBlockSlots` (lines 225–232): a block
child is processed with the shared counters and its stack depth is
restored afterwards; a function child is processed independently. -/
def computeChildren : List ScopeTree → Nat → Nat →
    Except Pass2Error (List SlotAssignment × Nat × Nat)
  | [], cc, sd => .ok ([], cc, sd)
  | .blockScope nfds lexs grand :: rest, cc, sd => do
    let (asB, _psB, cc, _sdInner) ← computeBlockParts nfds lexs grand cc sd
    let (asR, cc, sd) ← computeChildren rest cc sd
    .ok (asB ++ asR, cc, sd)
  | (.funcScope thisB params vars nfds lexs grand) :: rest, cc, sd => do
    let (asFn, _prol) ← computeFunctionSlots (.funcScope thisB params vars nfds lexs grand)
    let (asR, cc, sd) ← computeChildren rest cc sd
    .ok (asFn ++ asR, cc, sd)

end

/-! ## Lemmas about pass-2 slot computation -/

/-- The property claim C5 asserts of every slot assignment pass 2
performs: a binding captured by a nested function only ever occupies a
closure slot, and an argument slot goes only to a `this`/parameter
binding that is neither written to nor captured. -/
def assignmentOK (a : SlotAssignment) : Prop :=
  (a.binding.isAccessedByNestedFunction = true → ∃ k, a.slot = .closureSlot k) ∧
  (∀ k, a.slot = .argumentSlot k →
    (a.origin = .thisOrigin ∨ ∃ i, a.origin = .paramOrigin i) ∧
    a.binding.isWrittenTo = false ∧ a.binding.isAccessedByNestedFunction = false)

theorem createLocalOrClosureSlot_ok {b : Binding} {cc sd : Nat}
    {slot : Slot} {cc' sd' : Nat}
    (h : createLocalOrClosureSlot b cc sd = .ok (slot, cc', sd')) :
    (b.isAccessedByNestedFunction = true → ∃ k, slot = .closureSlot k) ∧
    (∀ k, slot ≠ .argumentSlot k) := by
  unfold createLocalOrClosureSlot at h
  split_ifs at h with h1 h2
  · cases h
    exact ⟨fun _ => ⟨cc, rfl⟩, fun k hk => nomatch hk⟩
  · cases h
    refine ⟨fun hc => ?_, fun k hk => nomatch hk⟩
    rw [hc] at h2
    exact absurd rfl h2
  all_goals cases h

theorem computeThisSlot_ok {thisB : Option Binding} {cc : Nat}
    {asm : List SlotAssignment} {ps : List PrologueStep} {cc' : Nat}
    (h : computeThisSlot thisB cc = .ok (asm, ps, cc')) :
    ∀ a ∈ asm, assignmentOK a := by
  match thisB with
  | none =>
    unfold computeThisSlot at h
    cases h
    intro a ha
    cases ha
  | some tb =>
    unfold computeThisSlot at h
    dsimp only at h
    split_ifs at h with h1 h2
    · cases h
      intro a ha
      rcases List.mem_singleton.mp ha with rfl
      exact ⟨fun _ => ⟨cc, rfl⟩, fun k hk => nomatch hk⟩
    · cases h
      intro a ha
      rcases List.mem_singleton.mp ha with rfl
      refine ⟨fun hc => absurd hc h2, fun k hk => ?_⟩
      cases hk
      exact ⟨Or.inl rfl, Bool.not_eq_true _ ▸ h1, Bool.not_eq_true _ ▸ h2⟩

theorem computeParamSlots_ok (params : List Binding) (paramI cc sd : Nat) :
    ∀ a ∈ (computeParamSlots params paramI cc sd).1, assignmentOK a := by
  induction params generalizing paramI cc sd with
  | nil => intro a ha; cases ha
  | cons b rest ih =>
    intro a ha
    unfold computeParamSlots at ha
    by_cases h1 : b.isAccessedByNestedFunction = true
    · rw [if_pos h1] at ha
      rcases hP : computeParamSlots rest (paramI + 1) (cc + 1) sd with ⟨asRest, psRest, cc2, sd2⟩
      rw [hP] at ha
      dsimp only at ha
      rcases List.mem_cons.mp ha with rfl | ha
      · exact ⟨fun _ => ⟨cc, rfl⟩, fun k hk => nomatch hk⟩
      · have := ih (paramI + 1) (cc + 1) sd a
        rw [hP] at this
        exact this ha
    · rw [if_neg h1] at ha
      by_cases h2 : b.isWrittenTo = true
      · rw [if_pos h2] at ha
        rcases hP : computeParamSlots rest (paramI + 1) cc (sd + 1) with ⟨asRest, psRest, cc2, sd2⟩
        rw [hP] at ha
        dsimp only at ha
        rcases List.mem_cons.mp ha with rfl | ha
        · exact ⟨fun hc => absurd hc h1, fun k hk => nomatch hk⟩
        · have := ih (paramI + 1) cc (sd + 1) a
          rw [hP] at this
          exact this ha
      · rw [if_neg h2] at ha
        rcases hP : computeParamSlots rest (paramI + 1) cc sd with ⟨asRest, psRest, cc2, sd2⟩
        rw [hP] at ha
        dsimp only at ha
        rcases List.mem_cons.mp ha with rfl | ha
        · refine ⟨fun hc => absurd hc h1, fun k hk => ?_⟩
          cases hk
          exact ⟨Or.inr ⟨paramI, rfl⟩, Bool.not_eq_true _ ▸ h2, Bool.not_eq_true _ ▸ h1⟩
        · have := ih (paramI + 1) cc sd a
          rw [hP] at this
          exact this ha

theorem computeVarSlots_ok {vars : List Binding} {cc sd : Nat}
    {out : List SlotAssignment × List PrologueStep × Nat × Nat}
    (h : computeVarSlots vars cc sd = .ok out) :
    ∀ a ∈ out.1, assignmentOK a := by
  induction vars generalizing cc sd out with
  | nil =>
    unfold computeVarSlots at h
    cases h
    intro a ha
    cases ha
  | cons b rest ih =>
    unfold computeVarSlots at h
    split_ifs at h with h1 h2
    · exact ih h
    · cases hs : createLocalOrClosureSlot b cc sd with
      | error e =>
        rw [hs, exbind_error] at h
        cases h
      | ok s3 =>
        obtain ⟨slot, cc2, sd2⟩ := s3
        rw [hs, exbind_ok] at h
        dsimp only at h
        cases hr : computeVarSlots rest cc2 sd2 with
        | error e =>
          rw [hr, exbind_error] at h
          cases h
        | ok out2 =>
          obtain ⟨asRest, psRest, cc3, sd3⟩ := out2
          rw [hr, exbind_ok] at h
          dsimp only at h
          cases h
          intro a ha
          rcases List.mem_cons.mp ha with rfl | ha
          · obtain ⟨hclo, harg⟩ := createLocalOrClosureSlot_ok hs
            exact ⟨hclo, fun k hk => absurd hk (harg k)⟩
          · exact ih hr a ha

theorem computeFuncDeclSlots_ok {nfds : List (Binding × String × Bool)} {cc sd : Nat}
    {out : List SlotAssignment × List PrologueStep × Nat × Nat}
    (h : computeFuncDeclSlots nfds cc sd = .ok out) :
    ∀ a ∈ out.1, assignmentOK a := by
  induction nfds generalizing cc sd out with
  | nil =>
    unfold computeFuncDeclSlots at h
    cases h
    intro a ha
    cases ha
  | cons bp rest ih =>
    obtain ⟨b, functionId, functionIsClosure⟩ := bp
    unfold computeFuncDeclSlots at h
    split_ifs at h with h1
    · exact ih h
    · cases hs : createLocalOrClosureSlot b cc sd with
      | error e =>
        rw [hs, exbind_error] at h
        cases h
      | ok s3 =>
        obtain ⟨slot, cc2, sd2⟩ := s3
        rw [hs, exbind_ok] at h
        dsimp only at h
        cases hr : computeFuncDeclSlots rest cc2 sd2 with
        | error e =>
          rw [hr, exbind_error] at h
          cases h
        | ok out2 =>
          obtain ⟨asRest, psRest, cc3, sd3⟩ := out2
          rw [hr, exbind_ok] at h
          dsimp only at h
          cases h
          intro a ha
          rcases List.mem_cons.mp ha with rfl | ha
          · obtain ⟨hclo, harg⟩ := createLocalOrClosureSlot_ok hs
            exact ⟨hclo, fun k hk => absurd hk (harg k)⟩
          · exact ih hr a ha

theorem computeLexicalSlots_ok {lexs : List Binding} {cc sd : Nat}
    {out : List SlotAssignment × List PrologueStep × Nat × Nat}
    (h : computeLexicalSlots lexs cc sd = .ok out) :
    ∀ a ∈ out.1, assignmentOK a := by
  induction lexs generalizing cc sd out with
  | nil =>
    unfold computeLexicalSlots at h
    cases h
    intro a ha
    cases ha
  | cons b rest ih =>
    unfold computeLexicalSlots at h
    split_ifs at h with h1
    · exact ih h
    · cases hs : createLocalOrClosureSlot b cc sd with
      | error e =>
        rw [hs, exbind_error] at h
        cases h
      | ok s3 =>
        obtain ⟨slot, cc2, sd2⟩ := s3
        rw [hs, exbind_ok] at h
        dsimp only at h
        cases hr : computeLexicalSlots rest cc2 sd2 with
        | error e =>
          rw [hr, exbind_error] at h
          cases h
        | ok out2 =>
          obtain ⟨asRest, psRest, cc3, sd3⟩ := out2
          rw [hr, exbind_ok] at h
          dsimp only at h
          cases h
          intro a ha
          rcases List.mem_cons.mp ha with rfl | ha
          · obtain ⟨hclo, harg⟩ := createLocalOrClosureSlot_ok hs
            exact ⟨hclo, fun k hk => absurd hk (harg k)⟩
          · exact ih hr a ha

/-- Every slot assignment produced anywhere in `computeFunctionSlots`,
`computeBlockParts` or `computeChildren` satisfies `assignmentOK`,
by strong induction on the size of the scope tree. -/
theorem pass2_assignments_ok :
    ∀ n : Nat,
    (∀ t : ScopeTree, ∀ asm prol, sizeOf t ≤ n →
      computeFunctionSlots t = .ok (asm, prol) → ∀ a ∈ asm, assignmentOK a) ∧
    (∀ nfds lexs, ∀ children : List ScopeTree, ∀ cc sd out, sizeOf children ≤ n →
      computeBlockParts nfds lexs children cc sd = .ok out → ∀ a ∈ out.1, assignmentOK a) ∧
    (∀ l : List ScopeTree, ∀ cc sd out, sizeOf l ≤ n →
      computeChildren l cc sd = .ok out → ∀ a ∈ out.1, assignmentOK a) := by
  intro n
  induction n with
  | zero =>
    refine ⟨fun t asm prol ht => ?_, fun nfds lexs children cc sd out hc => ?_,
      fun l cc sd out hl => ?_⟩
    · exact absurd ht (by cases t <;> simp)
    · exact absurd hc (by cases children <;> simp)
    · exact absurd hl (by cases l <;> simp)
  | succ n ih =>
    obtain ⟨ihF, ihB, ihC⟩ := ih
    have hChildren : ∀ l : List ScopeTree, sizeOf l ≤ n + 1 → ∀ cc sd out,
        computeChildren l cc sd = .ok out → ∀ a ∈ out.1, assignmentOK a := by
      intro l
      induction l with
      | nil =>
        intro _ cc sd out h
        unfold computeChildren at h
        cases h
        intro a ha
        cases ha
      | cons child rest ihrest =>
        intro hl cc sd out h
        have hrest_sz : sizeOf rest ≤ n + 1 := by
          have : sizeOf (child :: rest) = 1 + sizeOf child + sizeOf rest := by simp <;> try omega
          have hc1 : (1 : Nat) ≤ sizeOf child := by cases child <;> simp <;> try omega
          omega
        match child, h with
        | .blockScope nfds lexs grand, h =>
          unfold computeChildren at h
          cases hb : computeBlockParts nfds lexs grand cc sd with
          | error e =>
            rw [hb, exbind_error] at h
            cases h
          | ok outB =>
            obtain ⟨asB, psB, cc2, sd2⟩ := outB
            rw [hb, exbind_ok] at h
            dsimp only at h
            cases hr : computeChildren rest cc2 sd with
            | error e =>
              rw [hr, exbind_error] at h
              cases h
            | ok outR =>
              obtain ⟨asR, cc3, sd3⟩ := outR
              rw [hr, exbind_ok] at h
              dsimp only at h
              cases h
              intro a ha
              rcases List.mem_append.mp ha with ha | ha
              · refine ihB nfds lexs grand cc sd (asB, psB, cc2, sd2) ?_ hb a ha
                have hsz : sizeOf (ScopeTree.blockScope nfds lexs grand :: rest) =
                    1 + (1 + sizeOf nfds + sizeOf lexs + sizeOf grand) + sizeOf rest := by
                  simp <;> try omega
                have h1 : (1 : Nat) ≤ sizeOf nfds := by cases nfds <;> simp <;> try omega
                have h2 : (1 : Nat) ≤ sizeOf rest := by cases rest <;> simp <;> try omega
                omega
              · exact ihrest hrest_sz cc2 sd (asR, cc3, sd3) hr a ha
        | .funcScope thisB params vars nfds lexs grand, h =>
          unfold computeChildren at h
          cases hf : computeFunctionSlots (.funcScope thisB params vars nfds lexs grand) with
          | error e =>
            rw [hf, exbind_error] at h
            cases h
          | ok outF =>
            obtain ⟨asFn, prolF⟩ := outF
            rw [hf, exbind_ok] at h
            dsimp only at h
            cases hr : computeChildren rest cc sd with
            | error e =>
              rw [hr, exbind_error] at h
              cases h
            | ok outR =>
              obtain ⟨asR, cc3, sd3⟩ := outR
              rw [hr, exbind_ok] at h
              dsimp only at h
              cases h
              intro a ha
              rcases List.mem_append.mp ha with ha | ha
              · refine ihF _ asFn prolF ?_ hf a ha
                have hsz : sizeOf (ScopeTree.funcScope thisB params vars nfds lexs grand :: rest) =
                    1 + sizeOf (ScopeTree.funcScope thisB params vars nfds lexs grand)
                      + sizeOf rest := by
                  simp <;> try omega
                have h2 : (1 : Nat) ≤ sizeOf rest := by cases rest <;> simp <;> try omega
                omega
              · exact ihrest hrest_sz cc sd (asR, cc3, sd3) hr a ha
    have hBlockParts : ∀ nfds lexs, ∀ children : List ScopeTree, ∀ cc sd out,
        sizeOf children ≤ n + 1 →
        computeBlockParts nfds lexs children cc sd = .ok out →
        ∀ a ∈ out.1, assignmentOK a := by
      intro nfds lexs children cc sd out hc h
      unfold computeBlockParts at h
      cases hF : computeFuncDeclSlots nfds cc sd with
      | error e => rw [hF, exbind_error] at h; cases h
      | ok outF =>
        obtain ⟨asF, psF, cc2, sd2⟩ := outF
        rw [hF, exbind_ok] at h
        dsimp only at h
        cases hL : computeLexicalSlots lexs cc2 sd2 with
        | error e => rw [hL, exbind_error] at h; cases h
        | ok outL =>
          obtain ⟨asL, psL, cc3, sd3⟩ := outL
          rw [hL, exbind_ok] at h
          dsimp only at h
          cases hC : computeChildren children cc3 sd3 with
          | error e => rw [hC, exbind_error] at h; cases h
          | ok outC =>
            obtain ⟨asC, cc4, sd4⟩ := outC
            rw [hC, exbind_ok] at h
            dsimp only at h
            cases h
            intro a ha
            rcases List.mem_append.mp ha with ha | ha
            · rcases List.mem_append.mp ha with ha | ha
              · exact computeFuncDeclSlots_ok hF a ha
              · exact computeLexicalSlots_ok hL a ha
            · exact hChildren children hc cc3 sd3 (asC, cc4, sd4) hC a ha
    refine ⟨?_, hBlockParts, fun l cc sd out hl => hChildren l hl cc sd out⟩
    intro t asm prol ht h
    match t, h with
    | .funcScope thisB params vars nfds lexs children, h =>
      unfold computeFunctionSlots at h
      cases hT : computeThisSlot thisB 0 with
      | error e => rw [hT, exbind_error] at h; cases h
      | ok outT =>
        obtain ⟨asT, psT, cc1⟩ := outT
        rw [hT, exbind_ok] at h
        dsimp only at h
        rcases hP : computeParamSlots params 0 cc1 0 with ⟨asP, psP, cc2, sd2⟩
        rw [hP] at h
        dsimp only at h
        cases hV : computeVarSlots vars cc2 sd2 with
        | error e => rw [hV, exbind_error] at h; cases h
        | ok outV =>
          obtain ⟨asV, psV, cc3, sd3⟩ := outV
          rw [hV, exbind_ok] at h
          dsimp only at h
          cases hB : computeBlockParts nfds lexs children cc3 sd3 with
          | error e => rw [hB, exbind_error] at h; cases h
          | ok outB =>
            obtain ⟨asB, psB, cc4, sd4⟩ := outB
            rw [hB, exbind_ok] at h
            dsimp only at h
            cases h
            intro a ha
            rcases List.mem_append.mp ha with ha | ha
            · rcases List.mem_append.mp ha with ha | ha
              · rcases List.mem_append.mp ha with ha | ha
                · exact computeThisSlot_ok hT a ha
                · have := computeParamSlots_ok params 0 cc1 0 a
                  rw [hP] at this
                  exact this ha
              · exact computeVarSlots_ok hV a ha
            · refine hBlockParts nfds lexs children cc3 sd3 (asB, psB, cc4, sd4) ?_ hB a ha
              have hsz : sizeOf (ScopeTree.funcScope thisB params vars nfds lexs children) =
                  1 + sizeOf thisB + sizeOf params + sizeOf vars + sizeOf nfds
                    + sizeOf lexs + sizeOf children := by
                simp <;> try omega
              have h1 : (1 : Nat) ≤ sizeOf thisB := by cases thisB <;> simp <;> try omega
              have h2 : (1 : Nat) ≤ sizeOf params := by cases params <;> simp <;> try omega
              omega
    | .blockScope nfds lexs children, h =>
      unfold computeFunctionSlots at h
      cases h

theorem mem_scopePush_cons {x : PrologueStep} {l : List PrologueStep} {c : Prop}
    [Decidable c] {n : Nat} (h : x ∈ l) :
    x ∈ (if c then PrologueStep.scopePush n :: l else l) := by
  split
  · exact List.mem_cons_of_mem _ h
  · exact h

/-- Where the parameter loop puts each parameter: captured → closure slot
plus `InitParameter`; written-but-not-captured → local slot plus
`InitParameter`; otherwise `ArgumentSlot (index + 1)`. -/
theorem computeParamSlots_mem (params : List Binding) :
    ∀ paramI cc sd i b, params[i]? = some b →
    (b.isAccessedByNestedFunction = true →
      ∃ k, (⟨.paramOrigin (paramI + i), b, .closureSlot k⟩ : SlotAssignment)
          ∈ (computeParamSlots params paramI cc sd).1 ∧
        .initParameter (paramI + i + 1) (.closureSlot k)
          ∈ (computeParamSlots params paramI cc sd).2.1) ∧
    (b.isAccessedByNestedFunction = false → b.isWrittenTo = true →
      ∃ k, (⟨.paramOrigin (paramI + i), b, .localSlot k⟩ : SlotAssignment)
          ∈ (computeParamSlots params paramI cc sd).1 ∧
        .initParameter (paramI + i + 1) (.localSlot k)
          ∈ (computeParamSlots params paramI cc sd).2.1) ∧
    (b.isAccessedByNestedFunction = false → b.isWrittenTo = false →
      (⟨.paramOrigin (paramI + i), b, .argumentSlot (paramI + i + 1)⟩ : SlotAssignment)
        ∈ (computeParamSlots params paramI cc sd).1) := by
  induction params with
  | nil =>
    intro paramI cc sd i b hb
    rw [List.getElem?_nil] at hb
    cases hb
  | cons hd rest ih =>
    intro paramI cc sd i b hb
    match i with
    | 0 =>
      rw [List.getElem?_cons_zero] at hb
      injection hb with hb
      subst hb
      unfold computeParamSlots
      by_cases h1 : hd.isAccessedByNestedFunction = true
      · rw [if_pos h1]
        rcases hP : computeParamSlots rest (paramI + 1) (cc + 1) sd with ⟨asRest, psRest, c2, s2⟩
        dsimp only
        refine ⟨fun _ => ⟨cc, ?_, ?_⟩, fun hcap => absurd h1 (by simp [hcap]),
          fun hcap => absurd h1 (by simp [hcap])⟩
        · simp
        · simp
      · rw [if_neg h1]
        by_cases h2 : hd.isWrittenTo = true
        · rw [if_pos h2]
          rcases hP : computeParamSlots rest (paramI + 1) cc (sd + 1) with ⟨asRest, psRest, c2, s2⟩
          dsimp only
          refine ⟨fun hc => absurd hc h1, fun _ _ => ⟨sd, ?_, ?_⟩,
            fun _ hw => absurd h2 (by simp [hw])⟩
          · simp
          · simp
        · rw [if_neg h2]
          rcases hP : computeParamSlots rest (paramI + 1) cc sd with ⟨asRest, psRest, c2, s2⟩
          dsimp only
          refine ⟨fun hc => absurd hc h1, fun _ hw => absurd hw h2, fun _ _ => ?_⟩
          simp
    | i + 1 =>
      rw [List.getElem?_cons_succ] at hb
      have harith : paramI + 1 + i = paramI + (i + 1) := by omega
      unfold computeParamSlots
      by_cases h1 : hd.isAccessedByNestedFunction = true
      · rw [if_pos h1]
        have t := ih (paramI + 1) (cc + 1) sd i b hb
        rw [harith] at t
        rcases hP : computeParamSlots rest (paramI + 1) (cc + 1) sd with ⟨asRest, psRest, c2, s2⟩
        rw [hP] at t
        dsimp only
        obtain ⟨t1, t2, t3⟩ := t
        exact ⟨fun hc => (t1 hc).imp fun k hk =>
            ⟨List.mem_cons_of_mem _ hk.1, List.mem_cons_of_mem _ hk.2⟩,
          fun hc hw => (t2 hc hw).imp fun k hk =>
            ⟨List.mem_cons_of_mem _ hk.1, List.mem_cons_of_mem _ hk.2⟩,
          fun hc hw => List.mem_cons_of_mem _ (t3 hc hw)⟩
      · rw [if_neg h1]
        by_cases h2 : hd.isWrittenTo = true
        · rw [if_pos h2]
          have t := ih (paramI + 1) cc (sd + 1) i b hb
          rw [harith] at t
          rcases hP : computeParamSlots rest (paramI + 1) cc (sd + 1) with ⟨asRest, psRest, c2, s2⟩
          rw [hP] at t
          dsimp only
          obtain ⟨t1, t2, t3⟩ := t
          exact ⟨fun hc => (t1 hc).imp fun k hk =>
              ⟨List.mem_cons_of_mem _ hk.1, List.mem_cons_of_mem _ hk.2⟩,
            fun hc hw => (t2 hc hw).imp fun k hk =>
              ⟨List.mem_cons_of_mem _ hk.1, List.mem_cons_of_mem _ hk.2⟩,
            fun hc hw => List.mem_cons_of_mem _ (t3 hc hw)⟩
        · rw [if_neg h2]
          have t := ih (paramI + 1) cc sd i b hb
          rw [harith] at t
          rcases hP : computeParamSlots rest (paramI + 1) cc sd with ⟨asRest, psRest, c2, s2⟩
          rw [hP] at t
          dsimp only
          obtain ⟨t1, t2, t3⟩ := t
          exact ⟨fun hc => (t1 hc).imp fun k hk => ⟨List.mem_cons_of_mem _ hk.1, hk.2⟩,
            fun hc hw => (t2 hc hw).imp fun k hk => ⟨List.mem_cons_of_mem _ hk.1, hk.2⟩,
            fun hc hw => List.mem_cons_of_mem _ (t3 hc hw)⟩

/-! ## Claim C4 -/

/-- C4: in pass-2 slot computation, for every function scope on which it
succeeds: the `this` binding is never written to; it gets `ArgumentSlot 0`
when not accessed by a nested function, and otherwise a closure slot (the
first one) with an `InitThis` prologue step; the `i`-th named parameter
gets `ArgumentSlot (i+1)` when neither written to nor captured, a closure
slot with an `InitParameter` prologue step when captured, and a local
stack slot with an `InitParameter` prologue step when written to but not
captured. -/
theorem C4_parameter_slots :
    ∀ (thisB : Option Binding) (params vars : List Binding)
      (nfds : List (Binding × String × Bool)) (lexs : List Binding)
      (children : List ScopeTree) (asm : List SlotAssignment)
      (prol : List PrologueStep),
    computeFunctionSlots (.funcScope thisB params vars nfds lexs children) =
      .ok (asm, prol) →
    (∀ tb, thisB = some tb →
      tb.isWrittenTo = false ∧
      (tb.isAccessedByNestedFunction = false →
        (⟨.thisOrigin, tb, .argumentSlot 0⟩ : SlotAssignment) ∈ asm) ∧
      (tb.isAccessedByNestedFunction = true →
        (⟨.thisOrigin, tb, .closureSlot 0⟩ : SlotAssignment) ∈ asm ∧
        PrologueStep.initThis (.closureSlot 0) ∈ prol)) ∧
    (∀ i b, params[i]? = some b →
      (b.isAccessedByNestedFunction = true →
        ∃ k, (⟨.paramOrigin i, b, .closureSlot k⟩ : SlotAssignment) ∈ asm ∧
          PrologueStep.initParameter (i + 1) (.closureSlot k) ∈ prol) ∧
      (b.isAccessedByNestedFunction = false → b.isWrittenTo = true →
        ∃ k, (⟨.paramOrigin i, b, .localSlot k⟩ : SlotAssignment) ∈ asm ∧
          PrologueStep.initParameter (i + 1) (.localSlot k) ∈ prol) ∧
      (b.isAccessedByNestedFunction = false → b.isWrittenTo = false →
        (⟨.paramOrigin i, b, .argumentSlot (i + 1)⟩ : SlotAssignment) ∈ asm)) := by
  intro thisB params vars nfds lexs children asm prol h
  unfold computeFunctionSlots at h
  cases hT : computeThisSlot thisB 0 with
  | error e => rw [hT, exbind_error] at h; cases h
  | ok outT =>
    obtain ⟨asT, psT, cc1⟩ := outT
    rw [hT, exbind_ok] at h
    dsimp only at h
    rcases hP : computeParamSlots params 0 cc1 0 with ⟨asP, psP, cc2, sd2⟩
    rw [hP] at h
    dsimp only at h
    cases hV : computeVarSlots vars cc2 sd2 with
    | error e => rw [hV, exbind_error] at h; cases h
    | ok outV =>
      obtain ⟨asV, psV, cc3, sd3⟩ := outV
      rw [hV, exbind_ok] at h
      dsimp only at h
      cases hB : computeBlockParts nfds lexs children cc3 sd3 with
      | error e => rw [hB, exbind_error] at h; cases h
      | ok outB =>
        obtain ⟨asB, psB, cc4, sd4⟩ := outB
        rw [hB, exbind_ok] at h
        dsimp only at h
        cases h
        constructor
        · intro tb htb
          subst htb
          unfold computeThisSlot at hT
          dsimp only at hT
          split_ifs at hT with h1 h2
          · injection hT with hT
            injection hT with hT1 hT'
            injection hT' with hT2 hT3
            subst hT1
            subst hT2
            refine ⟨Bool.not_eq_true _ ▸ h1, fun hcap => absurd hcap (by simp [h2]),
              fun _ => ⟨?_, ?_⟩⟩
            · exact List.mem_append_left _ (List.mem_append_left _
                (List.mem_append_left _ (List.mem_singleton.mpr rfl)))
            · exact mem_scopePush_cons (List.mem_append_left _ (List.mem_append_left _
                (List.mem_append_left _ (List.mem_singleton.mpr rfl))))
          · injection hT with hT
            injection hT with hT1 hT'
            injection hT' with hT2 hT3
            subst hT1
            subst hT2
            refine ⟨Bool.not_eq_true _ ▸ h1, fun _ => ?_,
              fun hcap => absurd hcap h2⟩
            exact List.mem_append_left _ (List.mem_append_left _
              (List.mem_append_left _ (List.mem_singleton.mpr rfl)))
        · intro i b hb
          have := computeParamSlots_mem params 0 cc1 0 i b hb
          rw [hP] at this
          simp only [Nat.zero_add] at this
          obtain ⟨t1, t2, t3⟩ := this
          refine ⟨fun hc => ?_, fun hc hw => ?_, fun hc hw => ?_⟩
          · obtain ⟨k, hk1, hk2⟩ := t1 hc
            exact ⟨k, List.mem_append_left _ (List.mem_append_left _
                (List.mem_append_right _ hk1)),
              mem_scopePush_cons (List.mem_append_left _ (List.mem_append_left _
                (List.mem_append_right _ hk2)))⟩
          · obtain ⟨k, hk1, hk2⟩ := t2 hc hw
            exact ⟨k, List.mem_append_left _ (List.mem_append_left _
                (List.mem_append_right _ hk1)),
              mem_scopePush_cons (List.mem_append_left _ (List.mem_append_left _
                (List.mem_append_right _ hk2)))⟩
          · exact List.mem_append_left _ (List.mem_append_left _
              (List.mem_append_right _ (t3 hc hw)))

/-- Witness for C4: the theorem at a concrete function scope with a
captured `this` and one written (non-captured) parameter. -/
theorem C4_witness :
    ((⟨.thisOrigin, ⟨"this", .thisKind, false, true, false⟩, .closureSlot 0⟩ : SlotAssignment)
        ∈ [(⟨.thisOrigin, ⟨"this", .thisKind, false, true, false⟩, .closureSlot 0⟩ : SlotAssignment),
           ⟨.paramOrigin 0, ⟨"p", .paramKind, true, false, false⟩, .localSlot 0⟩] ∧
      PrologueStep.initThis (.closureSlot 0)
        ∈ [PrologueStep.scopePush 1, .initThis (.closureSlot 0),
           .initParameter 1 (.localSlot 0)]) ∧
    ∃ k, (⟨.paramOrigin 0, ⟨"p", .paramKind, true, false, false⟩, .localSlot k⟩ : SlotAssignment)
        ∈ [(⟨.thisOrigin, ⟨"this", .thisKind, false, true, false⟩, .closureSlot 0⟩ : SlotAssignment),
           ⟨.paramOrigin 0, ⟨"p", .paramKind, true, false, false⟩, .localSlot 0⟩] ∧
      PrologueStep.initParameter 1 (.localSlot k)
        ∈ [PrologueStep.scopePush 1, .initThis (.closureSlot 0),
           .initParameter 1 (.localSlot 0)] := by
  have h := C4_parameter_slots (some ⟨"this", .thisKind, false, true, false⟩)
    [⟨"p", .paramKind, true, false, false⟩] [] [] [] []
    [⟨.thisOrigin, ⟨"this", .thisKind, false, true, false⟩, .closureSlot 0⟩,
     ⟨.paramOrigin 0, ⟨"p", .paramKind, true, false, false⟩, .localSlot 0⟩]
    [PrologueStep.scopePush 1, .initThis (.closureSlot 0), .initParameter 1 (.localSlot 0)]
    (by simp [computeFunctionSlots, computeBlockParts, computeChildren, computeThisSlot, computeParamSlots, computeVarSlots, computeFuncDeclSlots, computeLexicalSlots, createLocalOrClosureSlot, exbind_ok])
  exact ⟨(h.1 _ rfl).2.2 rfl, (h.2 0 _ rfl).2.1 rfl rfl⟩

/-! ## Claim C5 -/

/-- C5: pass-2 slot computation never assigns an `ArgumentSlot` to a
binding whose `isAccessedByNestedFunction` flag is true — such a binding
always receives a closure slot — and an `ArgumentSlot` is assigned only to
a `this` or parameter binding that is neither written to nor captured by a
nested function. -/
theorem C5_captured_never_argument_slot :
    ∀ t : ScopeTree, ∀ asm prol, computeFunctionSlots t = .ok (asm, prol) →
    ∀ a ∈ asm,
      (a.binding.isAccessedByNestedFunction = true →
        (∃ k, a.slot = .closureSlot k) ∧ ∀ k, a.slot ≠ .argumentSlot k) ∧
      (∀ k, a.slot = .argumentSlot k →
        (a.origin = .thisOrigin ∨ ∃ i, a.origin = .paramOrigin i) ∧
        a.binding.isWrittenTo = false ∧
        a.binding.isAccessedByNestedFunction = false) := by
  intro t asm prol h a ha
  obtain ⟨h1, h2⟩ := (pass2_assignments_ok (sizeOf t)).1 t asm prol le_rfl h a ha
  refine ⟨fun hc => ⟨h1 hc, fun k hk => ?_⟩, h2⟩
  obtain ⟨k', hk'⟩ := h1 hc
  rw [hk'] at hk
  cases hk

/-- Witness for C5: the theorem at a concrete scope whose single `var` is
captured by a nested function. -/
theorem C5_witness :
    ((⟨.varOrigin, ⟨"x", .varKind, false, true, false⟩, .closureSlot 0⟩ : SlotAssignment).binding.isAccessedByNestedFunction = true →
      (∃ k, (⟨.varOrigin, ⟨"x", .varKind, false, true, false⟩, .closureSlot 0⟩ : SlotAssignment).slot = .closureSlot k) ∧
      ∀ k, (⟨.varOrigin, ⟨"x", .varKind, false, true, false⟩, .closureSlot 0⟩ : SlotAssignment).slot ≠ .argumentSlot k) ∧
    (∀ k, (⟨.varOrigin, ⟨"x", .varKind, false, true, false⟩, .closureSlot 0⟩ : SlotAssignment).slot = .argumentSlot k →
      ((⟨.varOrigin, ⟨"x", .varKind, false, true, false⟩, .closureSlot 0⟩ : SlotAssignment).origin = .thisOrigin ∨
        ∃ i, (⟨.varOrigin, ⟨"x", .varKind, false, true, false⟩, .closureSlot 0⟩ : SlotAssignment).origin = .paramOrigin i) ∧
      (⟨.varOrigin, ⟨"x", .varKind, false, true, false⟩, .closureSlot 0⟩ : SlotAssignment).binding.isWrittenTo = false ∧
      (⟨.varOrigin, ⟨"x", .varKind, false, true, false⟩, .closureSlot 0⟩ : SlotAssignment).binding.isAccessedByNestedFunction = false) :=
  C5_captured_never_argument_slot
    (.funcScope none [] [⟨"x", .varKind, false, true, false⟩] [] [] [])
    [⟨.varOrigin, ⟨"x", .varKind, false, true, false⟩, .closureSlot 0⟩]
    [.scopePush 1, .initVarDeclaration (.closureSlot 0)]
    (by simp [computeFunctionSlots, computeBlockParts, computeChildren, computeThisSlot, computeParamSlots, computeVarSlots, computeFuncDeclSlots, computeLexicalSlots, createLocalOrClosureSlot, exbind_ok]) _ (List.mem_singleton.mpr rfl)

/-! ## The IL emitter

Embedding of the cursor-based IL emitter of
`src/lib/src-to-il/analyze-scopes/pass-2-compute-slots.ts` (lines
315–2001): `predeclareBlock`, `createBlock`, `addOp`, `labelOfBlock`,
break scopes, and `moveCursor`.  Predeclared blocks are identified by a
unique reference number (`BlockRef`); a `LabelOperand` stores that
reference, which models the source's label back-patching (every label to a
predeclared block object ends up holding the block's id once it is
created, so labels-by-identity and labels-by-backpatched-id agree).
Stack depths are `Int` because the source never clamps them at zero. -/

/-- Literal values of `Literal` operands (`literalOperandValue`). -/
inductive Lit where
  | undefLit
  | nullLit
  | boolLit (b : Bool)
  | numLit (n : Int)
  | strLit (s : String)
deriving DecidableEq, Repr

/-- IL operands (`IL.Operand`), with labels holding the block reference. -/
inductive Operand where
  | label (ref : Nat)
  | lit (v : Lit)
  | index (n : Int)
  | count (n : Int)
  | opOp (subOperation : String)
  | name (s : String)
deriving DecidableEq, Repr

/-- The IL opcodes used by the compiled constructs in this embedding. -/
inductive Opcode where
  | Literal
  | LoadVar
  | Pop
  | Jump
  | Branch
  | BinOp
  | ArrayNew
  | ObjectSet
  | Return
deriving DecidableEq, Repr

/-- Modelled from the spec: per-opcode operand-type schemas ("IL opcodes
are a closed enumeration with per-opcode operand-type schemas and static
stack-deltas", §9); `il-opcodes.ts` is not under `src/`. -/
inductive OperandType where
  | labelT
  | litT
  | indexT
  | countT
  | opT
  | nameT
deriving DecidableEq, Repr

/-- Modelled from the spec: the operand schema of each opcode. -/
def opcodeOperandTypes : Opcode → List OperandType
  | .Literal => [.litT]
  | .LoadVar => [.indexT]
  | .Pop => [.countT]
  | .Jump => [.labelT]
  | .Branch => [.labelT, .labelT]
  | .BinOp => [.opT]
  | .ArrayNew => []
  | .ObjectSet => []
  | .Return => []

/-- Modelled from the spec: `IL.MAX_INDEX` / `IL.MAX_COUNT` operand bounds
(values fixed as `0x3FFF`; no theorem depends on the exact value). -/
def MAX_INDEX : Int := 0x3FFF

/-- Modelled from the spec: see `MAX_INDEX`. -/
def MAX_COUNT : Int := 0x3FFF

/-- One IL operation (`IL.Operation`): opcode, operands, and the stack
depths stamped by `addOp` (`stackDepthAfter` starts out undefined). -/
structure Operation where
  opcode : Opcode
  operands : List Operand
  stackDepthBefore : Int
  stackDepthAfter : Option Int
deriving DecidableEq, Repr

/-- One IL block (`IL.Block`): its id (from `nextBlockID`), its expected
stack depth at entry, and its operations. -/
structure Block where
  id : Nat
  expectedStackDepthAtEntry : Int
  operations : List Operation
deriving DecidableEq, Repr

/-- The per-function emission state: created blocks keyed by block
reference, the set of predeclared-but-not-yet-created references
(`predeclaredBlocks`), and the two counters. -/
structure EmitState where
  blocks : List (Nat × Block)
  predeclared : List Nat
  nextRef : Nat
  nextBlockID : Nat
deriving DecidableEq, Repr

/-- The cursor (`Cursor`): current block reference, current stack depth,
the break-scope stack (innermost first; only the target block reference is
needed), and the unreachability flag. -/
structure Cursor where
  block : Nat
  stackDepth : Int
  breakScope : List Nat
  unreachable : Bool
deriving DecidableEq, Repr

/-- Compile-time failures of the emitter. -/
inductive CompileErr where
  | internalError (msg : String)
  | compileError (msg : String)
  | unexpectedErr
deriving DecidableEq, Repr

/-- Modelled from the spec: `calcStaticStackChangeOfOp` — each opcode's
static stack delta (expressions push one value; `Pop n` pops `n`;
`Branch` pops the tested value; `ObjectSet` pops object, key and value;
`Return` pops the result). -/
def calcStaticStackChangeOfOp (op : Operation) : Int :=
  match op.opcode with
  | .Literal => 1
  | .LoadVar => 1
  | .Pop =>
    match op.operands with
    | [.count n] => -n
    | _ => 0
  | .Jump => 0
  | .Branch => -1
  | .BinOp => -1
  | .ArrayNew => 1
  | .ObjectSet => -3
  | .Return => -1

/-- The operand type/range checks of `addOp` (lines 919–946): each operand
must match the opcode's schema, index and count operands must lie in their
ranges, and the operand count must match the schema (the source has no
optional operands for these opcodes, and passing too few crashes). -/
def operandMatches : OperandType → Operand → Bool
  | .labelT, .label _ => true
  | .litT, .lit _ => true
  | .indexT, .index n => decide (0 ≤ n ∧ n ≤ MAX_INDEX)
  | .countT, .count n => decide (0 ≤ n ∧ n ≤ MAX_COUNT)
  | .opT, .opOp _ => true
  | .nameT, .name _ => true
  | _, _ => false

def checkOperands (opcode : Opcode) (operands : List Operand) : Bool :=
  decide (operands.length = (opcodeOperandTypes opcode).length) &&
  ((opcodeOperandTypes opcode).zip operands).all (fun to2 => operandMatches to2.1 to2.2)

/-- Look up a created block by reference. -/
def lookupBlock (s : EmitState) (r : Nat) : Option Block :=
  s.blocks.lookup r

/-- Append an operation to the block with reference `r`. -/
def appendOp (s : EmitState) (r : Nat) (op : Operation) : EmitState :=
  { s with blocks := s.blocks.map fun kb =>
      if kb.1 = r then (kb.1, { kb.2 with operations := kb.2.operations ++ [op] }) else kb }

/-- `addOp` (lines 918–1006): check the operands; build the operation with
`stackDepthBefore` stamped; if the cursor is unreachable, do not append it
and change nothing; otherwise append it to the current block, advance the
stack depth by the static delta, stamp `stackDepthAfter`, and for a `Jump`
or `Branch` whose target block already exists, raise an internal compile
error unless the target's `expectedStackDepthAtEntry` equals the
operation's `stackDepthAfter`. -/
def addOp (cur : Cursor) (s : EmitState) (opcode : Opcode) (operands : List Operand) :
    Except CompileErr (Cursor × EmitState) :=
  if ¬ checkOperands opcode operands then
    .error (.internalError "operand mismatch")
  else if cur.unreachable then
    .ok (cur, s)
  else
    let operation : Operation :=
      { opcode, operands, stackDepthBefore := cur.stackDepth, stackDepthAfter := none }
    let stackChange := calcStaticStackChangeOfOp operation
    let newDepth := cur.stackDepth + stackChange
    let operation := { operation with stackDepthAfter := some newDepth }
    let s := appendOp s cur.block operation
    let cur := { cur with stackDepth := newDepth }
    match opcode, operands with
    | .Jump, [.label r] =>
      match lookupBlock s r with
      | some b =>
        if b.expectedStackDepthAtEntry ≠ newDepth then
          .error (.internalError "jump stack depth mismatch")
        else .ok (cur, s)
      | none => .ok (cur, s)
    | .Branch, [.label rt, .label rf] =>
      match lookupBlock s rt with
      | some bt =>
        if bt.expectedStackDepthAtEntry ≠ newDepth then
          .error (.internalError "branch (true) stack depth mismatch")
        else
          match lookupBlock s rf with
          | some bf =>
            if bf.expectedStackDepthAtEntry ≠ newDepth then
              .error (.internalError "branch (false) stack depth mismatch")
            else .ok (cur, s)
          | none => .ok (cur, s)
      | none =>
        match lookupBlock s rf with
        | some bf =>
          if bf.expectedStackDepthAtEntry ≠ newDepth then
            .error (.internalError "branch (false) stack depth mismatch")
          else .ok (cur, s)
        | none => .ok (cur, s)
    | _, _ => .ok (cur, s)

/-- `predeclareBlock` (lines 870–874): allocate a fresh block reference
with an empty pending-label list. -/
def predeclareBlock (s : EmitState) : Nat × EmitState :=
  (s.nextRef,
    { s with predeclared := s.nextRef :: s.predeclared, nextRef := s.nextRef + 1 })

/-- `createBlock` (lines 882–916): create the block for a predeclared
reference, with a fresh id and `expectedStackDepthAtEntry` equal to the
cursor's current stack depth, and return a cursor at its start (same
stack depth and break scope, not unreachable).  Creating a reference that
was not predeclared is `unexpected()`. -/
def createBlock (cur : Cursor) (s : EmitState) (r : Nat) :
    Except CompileErr (Cursor × EmitState) :=
  if r ∈ s.predeclared then
    let block : Block :=
      { id := s.nextBlockID, expectedStackDepthAtEntry := cur.stackDepth, operations := [] }
    .ok ({ cur with block := r, unreachable := false },
      { s with blocks := s.blocks ++ [(r, block)],
               predeclared := s.predeclared.erase r,
               nextBlockID := s.nextBlockID + 1 })
  else .error .unexpectedErr

/-- `moveCursor` (`Object.assign(cur, toLocation)`): every call site
passes a cursor fresh from `createBlock`, which carries no `unreachable`
field, so the original cursor's flag is retained. -/
def moveCursor (cur toLocation : Cursor) : Cursor :=
  { toLocation with unreachable := cur.unreachable }

/-- `pushBreakScope` (lines 1120–1128). -/
def pushBreakScope (cur : Cursor) (breakToTarget : Nat) : Cursor :=
  { cur with breakScope := breakToTarget :: cur.breakScope }

/-- `popBreakScope` (lines 1130–1134): `unexpected()` on an empty stack. -/
def popBreakScope (cur : Cursor) : Except CompileErr Cursor :=
  match cur.breakScope with
  | [] => .error .unexpectedErr
  | _ :: rest => .ok { cur with breakScope := rest }

/-- `predeclareBlock` iterated (the `statement.cases.map(predeclareBlock)`
pattern of `compileSwitchStatement`). -/
def predeclareBlocks (s : EmitState) : Nat → List Nat × EmitState
  | 0 => ([], s)
  | n + 1 =>
    let (r, s) := predeclareBlock s
    let (rs, s) := predeclareBlocks s n
    (r :: rs, s)

/-- `compileDup` (lines 1477–1479): `LoadVar` of the top of stack. -/
def compileDup (cur : Cursor) (s : EmitState) : Except CompileErr (Cursor × EmitState) :=
  addOp cur s .LoadVar [.index (cur.stackDepth - 1)]

/-- `getBinOpCode` (lines 1786–1797). -/
def getBinOpCode (op : String) : Except CompileErr String :=
  if op = "instanceof" ∨ op = "in" then .error (.compileError "operator not supported")
  else if op = "==" then .error (.compileError "Use === instead of ==")
  else if op = "!=" then .error (.compileError "Use !== instead of !=")
  else .ok op

/-! ## The supported AST subset

The statement and expression forms the claims mention, as compiled by
`compileStatement` / `compileExpression`.  A switch case is a pair of an
optional test (`null` test = `default` case) and the consequent statement
list. -/

inductive Expr where
  | booleanLiteral (b : Bool)
  | numericLiteral (n : Int)
  | stringLiteral (s : String)
  | nullLiteral
  | binaryExpression (op : String) (left right : Expr)
  | conditionalExpression (test consequent alternate : Expr)
  | arrayExpression (elements : List (Option Expr))
deriving Repr

inductive Stmt where
  | expressionStatement (e : Expr)
  | blockStatement (body : List Stmt)
  | ifStatement (test : Expr) (consequent : Stmt) (alternate : Option Stmt)
  | whileStatement (test : Expr) (body : Stmt)
  | switchStatement (discriminant : Expr) (cases : List (Option Expr × List Stmt))
  | breakStatement
  | returnStatement (argument : Option Expr)
deriving Repr

mutual

/-- `compileExpression` (lines 1225–1252) for the supported subset, with
the bodies of `compileBinaryExpression` (lines 1765–1784, including the
`x / y | 0` special form), `compileConditionalExpression` (lines
1326–1350) and `compileArrayExpression` (lines 1352–1382) inlined at
their dispatch sites.  Returns immediately when the cursor is
unreachable. -/
def compileExpression (cur : Cursor) (s : EmitState) (e : Expr) :
    Except CompileErr (Cursor × EmitState) :=
  if cur.unreachable then .ok (cur, s) else
  match e with
  | .booleanLiteral b => addOp cur s .Literal [.lit (.boolLit b)]
  | .numericLiteral n => addOp cur s .Literal [.lit (.numLit n)]
  | .stringLiteral v => addOp cur s .Literal [.lit (.strLit v)]
  | .nullLiteral => addOp cur s .Literal [.lit .nullLit]
  | .binaryExpression op left right => do
    let binOpCode ← getBinOpCode op
    if binOpCode = "|" then
      match left, right with
      | .binaryExpression "/" ll lr, .numericLiteral 0 => do
        let (cur, s) ← compileExpression cur s ll
        let (cur, s) ← compileExpression cur s lr
        addOp cur s .BinOp [.opOp "DIVIDE_AND_TRUNC"]
      | left, right => do
        let (cur, s) ← compileExpression cur s left
        let (cur, s) ← compileExpression cur s right
        addOp cur s .BinOp [.opOp binOpCode]
    else do
      let (cur, s) ← compileExpression cur s left
      let (cur, s) ← compileExpression cur s right
      addOp cur s .BinOp [.opOp binOpCode]
  | .conditionalExpression test consequent alternate => do
    let (consequentB, s) := predeclareBlock s
    let (alternateB, s) := predeclareBlock s
    let (afterB, s) := predeclareBlock s
    let (cur, s) ← compileExpression cur s test
    let (cur, s) ← addOp cur s .Branch [.label consequentB, .label alternateB]
    let (consequentCur, s) ← createBlock cur s consequentB
    let (consequentCur, s) ← compileExpression consequentCur s consequent
    let (_, s) ← addOp consequentCur s .Jump [.label afterB]
    let (alternateCur, s) ← createBlock cur s alternateB
    let (alternateCur, s) ← compileExpression alternateCur s alternate
    let (alternateCur, s) ← addOp alternateCur s .Jump [.label afterB]
    let (afterCur, s) ← createBlock alternateCur s afterB
    .ok (moveCursor cur afterCur, s)
  | .arrayExpression elements => do
    let indexOfArrayInstance := cur.stackDepth
    let (cur, s) ← addOp cur s .ArrayNew []
    let (cur, s, endsInElision) ←
      compileArrayElements cur s elements indexOfArrayInstance 0 false
    if endsInElision then do
      let (cur, s) ← addOp cur s .LoadVar [.index indexOfArrayInstance]
      let (cur, s) ← addOp cur s .Literal [.lit (.strLit "length")]
      let (cur, s) ← addOp cur s .Literal [.lit (.numLit elements.length)]
      addOp cur s .ObjectSet []
    else .ok (cur, s)
termination_by sizeOf e
decreasing_by all_goals first | (simp_wf; omega) | simp_wf | omega

/-- The element loop of `compileArrayExpression` (lines 1358–1373): an
elision sets `endsInElision` and emits nothing; a present element clears
it and emits `LoadVar` of the array, `Literal i`, the element, and
`ObjectSet`. -/
def compileArrayElements (cur : Cursor) (s : EmitState)
    (elements : List (Option Expr)) (idx : Int) (i : Nat) (endsInElision : Bool) :
    Except CompileErr (Cursor × EmitState × Bool) :=
  match elements with
  | [] => .ok (cur, s, endsInElision)
  | none :: rest => compileArrayElements cur s rest idx (i + 1) true
  | some e :: rest => do
    let (cur, s) ← addOp cur s .LoadVar [.index idx]
    let (cur, s) ← addOp cur s .Literal [.lit (.numLit i)]
    let (cur, s) ← compileExpression cur s e
    let (cur, s) ← addOp cur s .ObjectSet []
    compileArrayElements cur s rest idx (i + 1) false
termination_by sizeOf elements
decreasing_by all_goals first | (simp_wf; omega) | simp_wf | omega

/-- `compileStatement` (lines 1080–1106) for the supported subset, with
the bodies of `compileExpressionStatement`, `compileIfStatement`,
`compileWhileStatement`, `compileSwitchStatement` (lines 1136–1223),
`compileBreakStatement` and `compileReturnStatement` inlined at their
dispatch sites.  Returns immediately when the cursor is unreachable. -/
def compileStatement (cur : Cursor) (s : EmitState) (st : Stmt) :
    Except CompileErr (Cursor × EmitState) :=
  if cur.unreachable then .ok (cur, s) else
  match st with
  | .expressionStatement e => do
    let (cur, s) ← compileExpression cur s e
    addOp cur s .Pop [.count 1]
  | .blockStatement body => do
    let stackDepthAtStart := cur.stackDepth
    let (cur, s) ← compileStatements cur s body
    if cur.unreachable then .ok (cur, s)
    else if cur.stackDepth - stackDepthAtStart ≠ 0 then .error .unexpectedErr
    else .ok (cur, s)
  | .ifStatement test consequent alternate =>
    match alternate with
    | some alt => do
      let (consequentB, s) := predeclareBlock s
      let (alternateB, s) := predeclareBlock s
      let (afterB, s) := predeclareBlock s
      let (cur, s) ← compileExpression cur s test
      let (cur, s) ← addOp cur s .Branch [.label consequentB, .label alternateB]
      let (consequentCur, s) ← createBlock cur s consequentB
      let (consequentCur, s) ← compileStatement consequentCur s consequent
      let (consequentCur, s) ← addOp consequentCur s .Jump [.label afterB]
      let (alternateCur, s) ← createBlock cur s alternateB
      let (alternateCur, s) ← compileStatement alternateCur s alt
      let (_, s) ← addOp alternateCur s .Jump [.label afterB]
      let (afterCur, s) ← createBlock consequentCur s afterB
      .ok (moveCursor cur afterCur, s)
    | none => do
      let (consequentB, s) := predeclareBlock s
      let (afterB, s) := predeclareBlock s
      let (cur, s) ← compileExpression cur s test
      let (cur, s) ← addOp cur s .Branch [.label consequentB, .label afterB]
      let (consequentCur, s) ← createBlock cur s consequentB
      let (consequentCur, s) ← compileStatement consequentCur s consequent
      let (_, s) ← addOp consequentCur s .Jump [.label afterB]
      let (afterCur, s) ← createBlock cur s afterB
      .ok (moveCursor cur afterCur, s)
  | .whileStatement test body => do
    let (exitBlock, s) := predeclareBlock s
    let (testBlock, s) := predeclareBlock s
    let (bodyBlock, s) := predeclareBlock s
    let cur := pushBreakScope cur exitBlock
    let (cur, s) ← addOp cur s .Jump [.label testBlock]
    let (testCur, s) ← createBlock cur s testBlock
    let (testCur, s) ← compileExpression testCur s test
    let (_, s) ← addOp testCur s .Branch [.label bodyBlock, .label exitBlock]
    let (bodyCur, s) ← createBlock cur s bodyBlock
    let (bodyCur, s) ← compileStatement bodyCur s body
    let (_, s) ← addOp bodyCur s .Jump [.label testBlock]
    let (exitCur, s) ← createBlock cur s exitBlock
    let cur := moveCursor cur exitCur
    let cur ← popBreakScope cur
    .ok (cur, s)
  | .switchStatement discriminant cases => do
    let (testBlocks, s) := predeclareBlocks s cases.length
    let (consequentBlocks, s) := predeclareBlocks s cases.length
    let (breakBlock, s) := predeclareBlock s
    let (cur, s) ← compileExpression cur s discriminant
    let cur := pushBreakScope cur breakBlock
    let firstBlock := testBlocks.headD breakBlock
    let (cur, s) ← addOp cur s .Jump [.label firstBlock]
    let (s, genDefault) ←
      compileSwitchTests cur s cases testBlocks consequentBlocks breakBlock false none
    let s ← match genDefault with
      | some defaultConsequent => do
        let (thisTestCur, s) ← createBlock cur s (testBlocks.getLastD breakBlock)
        let (_, s) ← addOp thisTestCur s .Jump [.label defaultConsequent]
        pure s
      | none => pure s
    let s ← compileSwitchConsequents cur s cases consequentBlocks breakBlock
    let (breakBlockCur, s) ← createBlock cur s breakBlock
    let (breakBlockCur, s) ← addOp breakBlockCur s .Pop [.count 1]
    let cur := moveCursor cur breakBlockCur
    let cur ← popBreakScope cur
    .ok (cur, s)
  | .breakStatement =>
    match cur.breakScope with
    | [] => .error (.compileError "No valid break target identified")
    | target :: _ => addOp cur s .Jump [.label target]
  | .returnStatement argument => do
    let (cur, s) ← match argument with
      | some e => compileExpression cur s e
      | none => addOp cur s .Literal [.lit .undefLit]
    let (cur, s) ← addOp cur s .Return []
    .ok ({ cur with unreachable := true }, s)
termination_by sizeOf st
decreasing_by all_goals first | (simp_wf; omega) | simp_wf | omega

/-- The statement loop of `compileBlockStatement` and
`compileEntryFunction`: stop as soon as the cursor becomes
unreachable. -/
def compileStatements (cur : Cursor) (s : EmitState) (stmts : List Stmt) :
    Except CompileErr (Cursor × EmitState) :=
  match stmts with
  | [] => .ok (cur, s)
  | st :: rest =>
    if cur.unreachable then .ok (cur, s)
    else do
      let (cur, s) ← compileStatement cur s st
      compileStatements cur s rest
termination_by sizeOf stmts
decreasing_by all_goals first | (simp_wf; omega) | simp_wf | omega

/-- The test-block loop of `compileSwitchStatement` (lines 1152–1197):
non-default cases consume the next test block, test a duplicate of the
discriminant against the case expression with `BinOp ===` and `Branch`
(false target: the next test block, or the break block); a second default
case is a compile error; the (at most one) default case merely records
its consequent block for `generateDefaultCase`. -/
def compileSwitchTests (cur : Cursor) (s : EmitState)
    (cases : List (Option Expr × List Stmt)) (testRefs consRefs : List Nat)
    (breakRef : Nat) (generatedDefaultCase : Bool) (genDefault : Option Nat) :
    Except CompileErr (EmitState × Option Nat) :=
  match cases with
  | [] => .ok (s, genDefault)
  | (testE, _) :: restCases =>
    match consRefs with
    | [] => .error .unexpectedErr
    | consequentBlock :: crRest =>
      match testE with
      | some test =>
        match testRefs with
        | [] => .error .unexpectedErr
        | thisTest :: restTests => do
          let (thisTestCur, s) ← createBlock cur s thisTest
          let nextTestBlock := restTests.headD breakRef
          let (thisTestCur, s) ← compileDup thisTestCur s
          let (thisTestCur, s) ← compileExpression thisTestCur s test
          let (thisTestCur, s) ← addOp thisTestCur s .BinOp [.opOp "==="]
          let (_, s) ← addOp thisTestCur s
            .Branch [.label consequentBlock, .label nextTestBlock]
          compileSwitchTests cur s restCases restTests crRest breakRef
            generatedDefaultCase genDefault
      | none =>
        if generatedDefaultCase then
          .error (.compileError "Duplicate default block in switch statement")
        else
          compileSwitchTests cur s restCases testRefs crRest breakRef true
            (some consequentBlock)
termination_by sizeOf cases
decreasing_by all_goals first | (simp_wf; omega) | simp_wf | omega

/-- The consequent loop of `compileSwitchStatement` (lines 1200–1213):
each consequent block is created from the switch-level cursor, its
statements are compiled, and it jumps to the next consequent (fallthrough)
or to the break block. -/
def compileSwitchConsequents (cur : Cursor) (s : EmitState)
    (cases : List (Option Expr × List Stmt)) (consRefs : List Nat)
    (breakRef : Nat) : Except CompileErr EmitState :=
  match cases with
  | [] => .ok s
  | (_, consequent) :: restCases =>
    match consRefs with
    | [] => .error .unexpectedErr
    | cr :: crRest => do
      let (cCur, s) ← createBlock cur s cr
      let (cCur, s) ← compileStatements cCur s consequent
      let nextConsequentBlock := crRest.headD breakRef
      let (_, s) ← addOp cCur s .Jump [.label nextConsequentBlock]
      compileSwitchConsequents cur s restCases crRest breakRef
termination_by sizeOf cases
decreasing_by all_goals first | (simp_wf; omega) | simp_wf | omega

end

/-- The initial emission state of a function: the entry block (created
directly, not predeclared, with entry stack depth 0). -/
def initialFuncState : EmitState :=
  { blocks := [(0, { id := 0, expectedStackDepthAtEntry := 0, operations := [] })],
    predeclared := [], nextRef := 1, nextBlockID := 1 }

/-- The initial cursor of a function body. -/
def initialCursor : Cursor :=
  { block := 0, stackDepth := 0, breakScope := [], unreachable := false }

/-- `compileFunction` restricted to the supported statement subset: the
entry block, the body statements, and the final
`Literal undefined; Return` emitted when control can reach the end. -/
def compileFunctionBody (stmts : List Stmt) : Except CompileErr (Cursor × EmitState) := do
  let (cur, s) ← compileStatements initialCursor initialFuncState stmts
  let (cur, s) ← addOp cur s .Literal [.lit .undefLit]
  addOp cur s .Return []

end Microvium
